import Mathlib

/-!
Verification of the ComfyUI-APIimage plugin: a shallow embedding of the
configuration store (`config.py`) and of the Gemini generation orchestration
(`GeminiImageGenerate.generate` in `nodes_gemini.py`), with theorems settling
the specification claims about them.

Python dicts are modelled as association lists in insertion order (CPython
dicts preserve insertion order); JSON documents as an inductive `Json` value;
code paths on which the source raises an uncaught exception are modelled with
`Except Unit` errors.
-/

/-- JSON values as stored in `api_config.json`. -/
inductive Json where
  | null
  | bool (b : Bool)
  | num (n : Int)
  | str (s : String)
  | arr (elems : List Json)
  | obj (fields : List (String × Json))

/-- Python dict lookup `d[key]` / `d.get(key)`: first (unique) matching key. -/
def alookup {α : Type} : List (String × α) → String → Option α
  | [], _ => none
  | (k, v) :: rest, key => if k = key then some v else alookup rest key

/-- Python dict store `d[key] = val`: overwrite in place if the key exists
(keeping its position), append otherwise. -/
def dset : List (String × Json) → String → Json → List (String × Json)
  | [], key, val => [(key, val)]
  | (k, v) :: rest, key, val =>
      if k = key then (k, val) :: rest else (k, v) :: dset rest key val

/-- Python membership test `key in d` on a dict. -/
def dhas (d : List (String × Json)) (key : String) : Bool := (alookup d key).isSome

/-- Python `str.strip()`: drop leading and trailing whitespace.  Written over
the character list so that it evaluates by kernel reduction. -/
def pyStrip (s : String) : String :=
  let cs := s.data.dropWhile Char.isWhitespace
  String.mk ((cs.reverse.dropWhile Char.isWhitespace).reverse)

/-- Python `str.lower()`. -/
def pyLower (s : String) : String := String.mk (s.data.map Char.toLower)

/-- Python slicing `s[:n]` on a string (by characters). -/
def pyTake (s : String) (n : Nat) : String := String.mk (s.data.take n)

def isPrefixB : List Char → List Char → Bool
  | [], _ => true
  | _ :: _, [] => false
  | a :: as, b :: bs => a == b && isPrefixB as bs

def hasSub (pat : List Char) : List Char → Bool
  | [] => pat.isEmpty
  | c :: rest => isPrefixB pat (c :: rest) || hasSub pat rest

/-- Python substring test `pat in s`. -/
def strContains (s pat : String) : Bool := hasSub pat.data s.data

/-! ## `config.py`: constants -/

/-- `BUILTIN_MODELS` from `config.py`. -/
def BUILTIN_MODELS : List (String × List String) :=
  [("Gemini Native", ["gemini-2.5-flash-image", "gemini-3-pro-image-preview"]),
   ("Grok API", ["grok-imagine-image", "grok-imagine-image-pro"]),
   ("OpenAI Compatible", ["dall-e-3", "dall-e-2", "gpt-image-1"]),
   ("Qwen Image", ["qwen-image-plus", "qwen-image-edit"]),
   ("GLM Image", ["glm-image", "cogview-4-250304"])]

def mkDefaultEntry (base_url model : String) : List (String × Json) :=
  [("api_key", Json.str ""), ("base_url", Json.str base_url),
   ("model_name", Json.str model), ("custom_models", Json.arr [])]

/-- The entries of `DEFAULT_CONFIG["api_configs"]` from `config.py`. -/
def DEFAULT_API_CONFIGS : List (String × List (String × Json)) :=
  [("Gemini Native", mkDefaultEntry "(SDK - Automatic)" "gemini-2.5-flash-image"),
   ("Grok API", mkDefaultEntry "https://api.x.ai" "grok-imagine-image-pro"),
   ("OpenAI Compatible", mkDefaultEntry "https://api.openai.com" "dall-e-3"),
   ("Qwen Image", mkDefaultEntry "https://dashscope.aliyuncs.com/api/v1" "qwen-image-plus"),
   ("GLM Image", mkDefaultEntry "https://open.bigmodel.cn/api" "glm-image")]

def defaultApiConfigsJson : Json :=
  Json.obj (DEFAULT_API_CONFIGS.map (fun p => (p.1, Json.obj p.2)))

/-- `DEFAULT_CONFIG` from `config.py`. -/
def DEFAULT_CONFIG : Json := Json.obj [("api_configs", defaultApiConfigsJson)]

/-! ## `config.py`: load with migration -/

/-- `if k not in config[...]: config[...][k] = v` — insert a key only when it
is missing. -/
def insertIfMissing (acc : List (String × Json)) (kv : String × Json) :
    List (String × Json) :=
  if dhas acc kv.1 then acc else dset acc kv.1 kv.2

/-- The per-entry migration body of `load_config` (`config.py` lines 94-101):
ensure `custom_models` exists, then insert every missing default key. -/
def ensureEntryKeys (defaults : List (String × Json)) (e : List (String × Json)) :
    List (String × Json) :=
  let e1 := if dhas e "custom_models" then e else dset e "custom_models" (Json.arr [])
  defaults.foldl insertIfMissing e1

/-- The `for api_type, defaults in DEFAULT_CONFIG["api_configs"].items()` loop of
`load_config`.  A backend entry that is present but is not a dict makes the
source raise `TypeError` when it is indexed, which `load_config` catches; that
path is `Except.error`. -/
def migrateApiConfigs :
    List (String × List (String × Json)) → List (String × Json) →
    Except Unit (List (String × Json))
  | [], acs => Except.ok acs
  | (name, defaults) :: rest, acs =>
    match alookup acs name with
    | none => migrateApiConfigs rest (dset acs name (Json.obj defaults))
    | some (Json.obj e) =>
        migrateApiConfigs rest (dset acs name (Json.obj (ensureEntryKeys defaults e)))
    | some _ => Except.error ()

/-- The migration step of `load_config` (`config.py` lines 87-102) on a parsed
JSON document.  A non-dict where the source indexes into a dict raises and is
caught by `load_config`; that path is `Except.error`. -/
def migrateConfig (j : Json) : Except Unit Json :=
  match j with
  | Json.obj fields =>
    match alookup fields "api_configs" with
    | none => Except.ok (Json.obj (dset fields "api_configs" defaultApiConfigsJson))
    | some (Json.obj acs) =>
      match migrateApiConfigs DEFAULT_API_CONFIGS acs with
      | Except.ok acs2 => Except.ok (Json.obj (dset fields "api_configs" (Json.obj acs2)))
      | Except.error u => Except.error u
    | some _ => Except.error ()
  | _ => Except.error ()

/-- `load_config` from `config.py`.  The argument models the stored file:
`none` = file missing, `some none` = file present but not parseable JSON,
`some (some j)` = file parses to `j`.  Missing file, parse failure and any
exception during migration all yield the compiled defaults. -/
def load_config : Option (Option Json) → Json
  | none => DEFAULT_CONFIG
  | some none => DEFAULT_CONFIG
  | some (some j) =>
    match migrateConfig j with
    | Except.ok c => c
    | Except.error _ => DEFAULT_CONFIG

/-! ## `config.py`: save -/

/-- The primitive file operations `save_config` performs: `open(path, "w")`
truncates the file in place, then `json.dump` writes the serialized document. -/
inductive SaveStep where
  | truncate
  | writeAll (content : Json)

/-- `save_config` (`config.py` lines 109-116) as its sequence of file steps:
truncate-open, then write the new content.  There is no temporary file and no
rename. -/
def save_config_steps (config : Json) : List SaveStep :=
  [SaveStep.truncate, SaveStep.writeAll config]

/-- Effect of one file step on the stored file; a truncated (empty) file is not
parseable JSON, hence `none`. -/
def applySaveStep : Option Json → SaveStep → Option Json
  | _, SaveStep.truncate => none
  | _, SaveStep.writeAll j => some j

def fileAfterSteps (prior : Option Json) (steps : List SaveStep) : Option Json :=
  steps.foldl applySaveStep prior

/-! ## `config.py`: set_api_config -/

def fallbackEntry : List (String × Json) :=
  [("api_key", Json.str ""), ("base_url", Json.str ""),
   ("model_name", Json.str ""), ("custom_models", Json.arr [])]

/-- `DEFAULT_CONFIG["api_configs"].get(api_type, ...).copy()` from
`set_api_config`. -/
def defaultEntryFor (api_type : String) : List (String × Json) :=
  match alookup DEFAULT_API_CONFIGS api_type with
  | some d => d
  | none => fallbackEntry

/-- The three `if ... is not None` field updates of `set_api_config`. -/
def applyFieldUpdates (e : List (String × Json))
    (api_key base_url model_name : Option String) : List (String × Json) :=
  let e1 := match api_key with
    | some v => dset e "api_key" (Json.str v)
    | none => e
  let e2 := match base_url with
    | some v => dset e1 "base_url" (Json.str v)
    | none => e1
  match model_name with
  | some v => dset e2 "model_name" (Json.str v)
  | none => e2

/-- `set_api_config` (`config.py` lines 125-142) acting on the loaded config
document; the result is the document passed to `save_config`.  Non-dict values
where the source indexes into a dict raise uncaught exceptions, modelled as
`Except.error`; when the entry is a non-dict but no field update is requested,
nothing is assigned and the source returns normally. -/
def set_api_config (config : Json) (api_type : String)
    (api_key base_url model_name : Option String) : Except Unit Json :=
  match config with
  | Json.obj top =>
    match alookup top "api_configs" with
    | some (Json.obj acs) =>
      let acs1 := if dhas acs api_type then acs
                  else dset acs api_type (Json.obj (defaultEntryFor api_type))
      match alookup acs1 api_type with
      | some (Json.obj e) =>
          Except.ok (Json.obj (dset top "api_configs"
            (Json.obj (dset acs1 api_type
              (Json.obj (applyFieldUpdates e api_key base_url model_name))))))
      | some _ =>
          if api_key.isNone ∧ base_url.isNone ∧ model_name.isNone
          then Except.ok config else Except.error ()
      | none => Except.error ()
    | none =>
      Except.ok (Json.obj (dset top "api_configs"
        (Json.obj [(api_type,
          Json.obj (applyFieldUpdates (defaultEntryFor api_type)
            api_key base_url model_name))])))
    | some _ => Except.error ()
  | _ => Except.error ()

/-! ## `config.py`: model catalog -/

/-- `BUILTIN_MODELS.get(api_type, [])`. -/
def builtin_models_of (api_type : String) : List String :=
  match alookup BUILTIN_MODELS api_type with
  | some l => l
  | none => []

/-- `get_model_list` (`config.py` lines 145-155) given the persisted
`custom_models` list of the backend.  Per the config schema (spec section 6)
`custom_models` is an array of strings.  The source guard `if m` skips falsy
entries, i.e. empty strings. -/
def get_model_list (api_type : String) (custom : List String) : List String :=
  let builtin := builtin_models_of api_type
  custom.foldl (fun acc m => if m ≠ "" ∧ m ∉ acc then acc ++ [m] else acc) builtin

/-- The effective model list as claim C7 words it: the builtin list followed by
each persisted custom model not already present, in custom insertion order
(no emphasis on skipping empty names). -/
def effective_models_claim (api_type : String) (custom : List String) : List String :=
  custom.foldl (fun acc m => if m ∉ acc then acc ++ [m] else acc)
    (builtin_models_of api_type)

/-- The custom models actually appended by `get_model_list` when starting from
`acc`: each non-empty entry not already present, in insertion order. -/
def customAdditions (acc : List String) : List String → List String
  | [] => []
  | m :: ms =>
    if m ≠ "" ∧ m ∉ acc then m :: customAdditions (acc ++ [m]) ms
    else customAdditions acc ms

/-! ## `config.py`: custom model add/remove -/

/-- Python `==` between a JSON value and a string: only equal strings compare
equal (`str == non-str` is `False`). -/
def jstrEq : Json → String → Bool
  | Json.str t, s => t == s
  | _, _ => false

/-- Python `name in customs` on a list of JSON values. -/
def containsStr (l : List Json) (s : String) : Bool := l.any (fun j => jstrEq j s)

/-- Python `customs.remove(name)`: drop the first element equal to `name`. -/
def removeFirstStr : List Json → String → List Json
  | [], _ => []
  | j :: rest, s => if jstrEq j s then rest else j :: removeFirstStr rest s

/-- `add_custom_model` (`config.py` lines 158-171) acting on the loaded config
document.  Returns the flag the source returns together with the persisted
document (on the `False` paths `save_config` is not called, so the persisted
document is the input one).  The `setdefault` chain creates missing containers;
a present container of the wrong shape makes the source raise, modelled as
`Except.error`. -/
def add_custom_model (config : Json) (api_type name0 : String) :
    Except Unit (Bool × Json) :=
  if name0 = "" ∨ pyStrip name0 = "" then Except.ok (false, config)
  else
    let name := pyStrip name0
    match config with
    | Json.obj top =>
      match alookup top "api_configs" with
      | some (Json.obj acs) =>
        match alookup acs api_type with
        | some (Json.obj e) =>
          match alookup e "custom_models" with
          | some (Json.arr customs) =>
            if containsStr customs name then Except.ok (false, config)
            else Except.ok (true, Json.obj (dset top "api_configs"
              (Json.obj (dset acs api_type (Json.obj (dset e "custom_models"
                (Json.arr (customs ++ [Json.str name]))))))))
          | some _ => Except.error ()
          | none =>
            Except.ok (true, Json.obj (dset top "api_configs"
              (Json.obj (dset acs api_type (Json.obj (dset e "custom_models"
                (Json.arr [Json.str name])))))))
        | some _ => Except.error ()
        | none =>
          Except.ok (true, Json.obj (dset top "api_configs"
            (Json.obj (dset acs api_type
              (Json.obj [("custom_models", Json.arr [Json.str name])])))))
      | some _ => Except.error ()
      | none =>
        Except.ok (true, Json.obj (dset top "api_configs"
          (Json.obj [(api_type,
            Json.obj [("custom_models", Json.arr [Json.str name])])])))
    | _ => Except.error ()

/-- `remove_custom_model` (`config.py` lines 174-184) acting on the loaded
config document.  The read path uses `.get` with `{}`/`[]` defaults, so any
missing container yields `False` without mutation. -/
def remove_custom_model (config : Json) (api_type name : String) :
    Except Unit (Bool × Json) :=
  match config with
  | Json.obj top =>
    match alookup top "api_configs" with
    | some (Json.obj acs) =>
      match alookup acs api_type with
      | some (Json.obj e) =>
        match alookup e "custom_models" with
        | some (Json.arr customs) =>
          if containsStr customs name then
            Except.ok (true, Json.obj (dset top "api_configs"
              (Json.obj (dset acs api_type (Json.obj (dset e "custom_models"
                (Json.arr (removeFirstStr customs name))))))))
          else Except.ok (false, config)
        | some _ => Except.error ()
        | none => Except.ok (false, config)
      | some _ => Except.error ()
      | none => Except.ok (false, config)
    | some _ => Except.error ()
    | none => Except.ok (false, config)
  | _ => Except.error ()

/-- The persisted custom-model list of a backend as read through the `.get`
chain of `remove_custom_model`/`get_model_list` (missing containers read as
empty). -/
def customsRead (config : Json) (api_type : String) : List Json :=
  match config with
  | Json.obj top =>
    match alookup top "api_configs" with
    | some (Json.obj acs) =>
      match alookup acs api_type with
      | some (Json.obj e) =>
        match alookup e "custom_models" with
        | some (Json.arr customs) => customs
        | _ => []
      | _ => []
    | _ => []
  | _ => []

/-- The string forms of the persisted custom models (the config schema stores
strings there). -/
def readCustomStrings (config : Json) (api_type : String) : List String :=
  (customsRead config api_type).filterMap (fun j =>
    match j with
    | Json.str s => some s
    | _ => none)

/-- Reads one field of one backend entry through the nested dict structure
(used to state preservation of entry fields across migration). -/
def configField (j : Json) (name key : String) : Option Json :=
  match j with
  | Json.obj fields =>
    match alookup fields "api_configs" with
    | some (Json.obj acs) =>
      match alookup acs name with
      | some (Json.obj e) => alookup e key
      | _ => none
    | _ => none
  | _ => none

/-! ## `nodes_gemini.py`: data model of the SDK boundary -/

/-- `MODEL_REF_IMAGE_LIMITS` from `nodes_gemini.py`. -/
def MODEL_REF_IMAGE_LIMITS : List (String × Nat × Nat) :=
  [("gemini-2.5-flash-image", (0, 3)),
   ("gemini-3-pro-image-preview", (0, 14))]

/-- One safety rating on a response candidate (`blocked` models
`hasattr(r, 'blocked') and r.blocked`). -/
structure SafetyRating where
  category : String
  probability : String
  blocked : Bool
deriving DecidableEq

/-- One response candidate.  `finish_reason` is `none` when the attribute is
absent or falsy; `safety_ratings` is `[]` when absent or falsy. -/
structure Candidate where
  finish_reason : Option String
  safety_ratings : List SafetyRating
deriving DecidableEq

/-- The value of `part.inline_data.data`: raw bytes, a base64 string (with the
result of `base64.b64decode`, `none` when decoding raises), or another type
(in which case the source appends nothing and raises nothing). -/
inductive RawData where
  | bytes (b : List Nat)
  | str (decoded : Option (List Nat))
  | other
deriving DecidableEq

/-- `part.inline_data`.  `as_image` is `some png` when
`part.as_image()` followed by the PNG save succeeds with bytes `png`, and
`none` when that path raises and the source falls back to the raw data. -/
structure InlineData where
  as_image : Option (List Nat)
  data : RawData
deriving DecidableEq

/-- One response part. -/
structure RespPart where
  thought : Bool
  text : Option String
  inline_data : Option InlineData
deriving DecidableEq

/-- A `generate_content` response.  `parts` is `[]` when the attribute is
`None` or empty (both falsy); `candidates` likewise. -/
structure GeminiResponse where
  parts : List RespPart
  candidates : List Candidate
deriving DecidableEq

/-- An element of the `contents` list passed to the SDK: the prompt string or
a converted PIL image (abstract handle). -/
inductive ContentItem where
  | text (s : String)
  | image (handle : Nat)
deriving DecidableEq

/-- The classified failures `generate` can raise (`ValueError`,
`ImportError` and the `RuntimeError` branches of `nodes_gemini.py`).
`nameErrorResponse` models the `NameError` on the undefined `response`
variable when the loop body never ran. -/
inductive GenError where
  | emptyPrompt
  | emptyApiKey
  | importFailed
  | clientCreateFailed (msg : String)
  | refLimitViolation (msg : String)
  | authFailed
  | modelNotFound (model : String)
  | permissionDenied
  | quotaExceeded
  | overloaded
  | networkTimeout
  | apiOtherError (raw : String)
  | generationFailed (parts : List String)
  | nameErrorResponse
deriving DecidableEq

/-- The external world `generate` interacts with: SDK import, client
construction, the two media conversions from `utils.py`, and the backend call
per loop iteration (index, contents) — all outside the orchestration itself. -/
structure GenEnv where
  importOk : Bool
  clientResult : Except String Unit
  tensorToPil : Except String (List Nat)
  maskToPil : Except String (Option Nat)
  generateContent : Nat → List ContentItem → Except String GeminiResponse

/-- The arguments of `GeminiImageGenerate.generate`.  `ref_images` carries the
batch size of the supplied tensor (the only datum the orchestration inspects);
`mask` records presence. -/
structure GenArgs where
  prompt : String
  api_key : String
  model_name : String
  num_images : Nat
  aspect_ratio : String
  resolution : String
  base_url : String
  ref_images : Option Nat
  mask : Option Unit
  custom_model : String
  seed : Nat

/-- What one `generate` call did: the returned value or raised error, how many
backend invocations were issued, whether an SDK client was constructed, and
the `contents` list built for the request (empty on paths that fail before it
is built). -/
structure GenOutcome where
  result : Except GenError (List (List Nat) × String)
  apiCalls : Nat
  clientCreated : Bool
  contents : List ContentItem

instance : DecidableEq (Except GenError (List (List Nat) × String)) := fun a b =>
  match a, b with
  | Except.ok x, Except.ok y => decidable_of_iff (x = y) (by simp)
  | Except.error x, Except.error y => decidable_of_iff (x = y) (by simp)
  | Except.ok _, Except.error _ => isFalse (by simp)
  | Except.error _, Except.ok _ => isFalse (by simp)

/-! ## `nodes_gemini.py`: generate -/

/-- `effective_model = custom_model.strip() if custom_model and
custom_model.strip() else model_name`. -/
def effective_model (custom_model model_name : String) : String :=
  if custom_model ≠ "" ∧ pyStrip custom_model ≠ "" then pyStrip custom_model
  else model_name

/-- Modelled from the spec: `validate_ref_images` lives in `utils.py`, which is
not among the sources here; spec section 4.3 gives its contract:
`check_reference_count(backend_id, model, count)` fails with a
ConstraintViolation classified error when `count` falls outside the registered
inclusive `(min, max)` for that exact pair, and pairs absent from the limit
table impose no constraint.  `count` is the number of supplied reference
images (0 when none are supplied). -/
def validate_ref_images (backend model : String) (count : Nat)
    (limits : List (String × Nat × Nat)) : Except String Unit :=
  match alookup limits model with
  | none => Except.ok ()
  | some (lo, hi) =>
    if lo ≤ count ∧ count ≤ hi then Except.ok ()
    else Except.error ("[APIImage " ++ backend ++ "] Reference image count " ++
      toString count ++ " outside allowed range for model " ++ model)

/-- The error classification chain of `nodes_gemini.py` lines 221-251 applied
to the stringified exception of a failed `generate_content` call. -/
def classifyApiError (model e : String) : GenError :=
  if strContains e "401" || strContains e "UNAUTHENTICATED" then GenError.authFailed
  else if strContains e "404" || strContains e "NOT_FOUND" then GenError.modelNotFound model
  else if strContains e "403" || strContains e "PERMISSION_DENIED" then GenError.permissionDenied
  else if strContains e "429" || strContains e "RESOURCE_EXHAUSTED" then GenError.quotaExceeded
  else if strContains e "503" || strContains e "UNAVAILABLE" then GenError.overloaded
  else if strContains (pyLower e) "timed out" || strContains (pyLower e) "timeout" then
    GenError.networkTimeout
  else GenError.apiOtherError e

/-- Response-part handling of `nodes_gemini.py` lines 254-274 for one part:
skip thoughts, collect text, else extract image bytes via `as_image` with the
raw-data fallback. -/
def processPart (acc : List (List Nat) × List String) (p : RespPart) :
    List (List Nat) × List String :=
  if p.thought then acc
  else
    match p.text with
    | some t => (acc.1, acc.2 ++ [t])
    | none =>
      match p.inline_data with
      | some d =>
        match d.as_image with
        | some png => (acc.1 ++ [png], acc.2)
        | none =>
          match d.data with
          | RawData.bytes b => (acc.1 ++ [b], acc.2)
          | RawData.str (some dec) => (acc.1 ++ [dec], acc.2)
          | RawData.str none => acc
          | RawData.other => acc
      | none => acc

def processParts (ps : List RespPart) (acc : List (List Nat) × List String) :
    List (List Nat) × List String :=
  ps.foldl processPart acc

/-- The safety categories of one candidate that were blocked
(`nodes_gemini.py` lines 291-295). -/
def blockedCats (c : Candidate) : List String :=
  (c.safety_ratings.filter (fun r => r.blocked)).map
    (fun r => r.category ++ "=" ++ r.probability)

/-- Diagnostics gathered from one candidate (`nodes_gemini.py` lines 285-297). -/
def candDiagnostics (ep : List String) (c : Candidate) : List String :=
  let ep1 := match c.finish_reason with
    | some r =>
      if r ≠ "STOP" ∧ r ≠ "FinishReason.STOP" then ep ++ ["Blocked: " ++ r] else ep
    | none => ep
  if blockedCats c ≠ [] then
    ep1 ++ ["Safety: " ++ String.intercalate ", " (blockedCats c)]
  else ep1

/-- The `error_parts` list built when zero images were extracted
(`nodes_gemini.py` lines 282-302), from the loop's final `response` and the
accumulated text messages. -/
def buildErrorParts (r : GeminiResponse) (txts : List String)
    (text_response : String) : List String :=
  let ep := r.candidates.foldl candDiagnostics []
  let ep2 := if txts ≠ [] then ep ++ ["Model response: " ++ pyTake text_response 500]
             else ep
  if ep2 = [] then ["No image data in response"] else ep2

/-- The `for gen_idx in range(num_images)` loop (`nodes_gemini.py` lines
214-277): issue one backend call per remaining image, classify and re-raise a
failed call immediately, otherwise accumulate extracted images and text and
remember the iteration's response.  `call` is the environment's
`generate_content` invocation. -/
def genLoop (call : Nat → List ContentItem → Except String GeminiResponse)
    (model : String) (contents : List ContentItem) :
    Nat → Nat → List (List Nat) → List String → Option GeminiResponse →
    Except (GenError × Nat)
      (List (List Nat) × List String × Option GeminiResponse × Nat)
  | 0, calls, imgs, txts, lastR => Except.ok (imgs, txts, lastR, calls)
  | Nat.succ k, calls, imgs, txts, _ =>
    match call calls contents with
    | Except.error e => Except.error (classifyApiError model e, calls + 1)
    | Except.ok resp =>
      let acc := processParts resp.parts (imgs, txts)
      genLoop call model contents k (calls + 1) acc.1 acc.2 (some resp)

/-- The `contents` construction of `nodes_gemini.py` lines 188-208: the prompt,
then the converted reference images (omitted with a warning when conversion
raises), then the converted mask (omitted when conversion raises or yields a
falsy value). -/
def buildContents (env : GenEnv) (a : GenArgs) : List ContentItem :=
  let c0 := [ContentItem.text a.prompt]
  let c1 := match a.ref_images with
    | none => c0
    | some _ =>
      match env.tensorToPil with
      | Except.ok pils => c0 ++ pils.map ContentItem.image
      | Except.error _ => c0
  match a.mask with
  | none => c1
  | some _ =>
    match env.maskToPil with
    | Except.ok (some m) => c1 ++ [ContentItem.image m]
    | Except.ok none => c1
    | Except.error _ => c1

/-- The number of reference images supplied (0 when the input is absent). -/
def refCount (a : GenArgs) : Nat := a.ref_images.getD 0

/-- The tail of `generate` after the loop (`nodes_gemini.py` lines 279-315):
join the text, fail with the diagnostic `error_parts` when no image was
extracted (a `NameError` on the unbound `response` when the loop never ran),
otherwise return the images and text. -/
def finishLoop (contents : List ContentItem)
    (r : Except (GenError × Nat)
      (List (List Nat) × List String × Option GeminiResponse × Nat)) : GenOutcome :=
  match r with
  | Except.error (err, n) => ⟨Except.error err, n, true, contents⟩
  | Except.ok (imgs, txts, lastR, n) =>
    let text_response := if txts = [] then "" else String.intercalate "\n" txts
    if imgs = [] then
      match lastR with
      | none => ⟨Except.error GenError.nameErrorResponse, n, true, contents⟩
      | some r2 =>
        ⟨Except.error (GenError.generationFailed
          (buildErrorParts r2 txts text_response)), n, true, contents⟩
    else ⟨Except.ok (imgs, text_response), n, true, contents⟩

/-- The part of `generate` from reference-image validation onward
(`nodes_gemini.py` lines 185-315). -/
def generateTail (env : GenEnv) (a : GenArgs) : GenOutcome :=
  let model := effective_model a.custom_model a.model_name
  match validate_ref_images "Gemini" model (refCount a) MODEL_REF_IMAGE_LIMITS with
  | Except.error m => ⟨Except.error (GenError.refLimitViolation m), 0, true, []⟩
  | Except.ok _ =>
    let contents := buildContents env a
    finishLoop contents
      (genLoop env.generateContent model contents a.num_images 0 [] [] none)

/-- `GeminiImageGenerate.generate` (`nodes_gemini.py` lines 108-315):
validation, SDK import, client creation, reference-image validation, contents
construction, the generation loop, and the empty-result failure.  The returned
images are the raw byte buffers handed to `bytes_to_tensor`. -/
def generate (env : GenEnv) (a : GenArgs) : GenOutcome :=
  if a.prompt = "" ∨ pyStrip a.prompt = "" then
    ⟨Except.error GenError.emptyPrompt, 0, false, []⟩
  else if a.api_key = "" ∨ pyStrip a.api_key = "" then
    ⟨Except.error GenError.emptyApiKey, 0, false, []⟩
  else if ¬ env.importOk then
    ⟨Except.error GenError.importFailed, 0, false, []⟩
  else
    match env.clientResult with
    | Except.error e => ⟨Except.error (GenError.clientCreateFailed e), 0, false, []⟩
    | Except.ok _ => generateTail env a

/-! ## Association-list lemmas -/

theorem alookup_dset_self (d : List (String × Json)) (k : String) (v : Json) :
    alookup (dset d k v) k = some v := by
  induction d with
  | nil => simp [dset, alookup]
  | cons p rest ih =>
    obtain ⟨k0, v0⟩ := p
    by_cases h : k0 = k
    · simp [dset, h, alookup]
    · simp [dset, h, alookup, ih]

theorem alookup_dset_ne (d : List (String × Json)) (k k2 : String) (v : Json)
    (h : k ≠ k2) : alookup (dset d k v) k2 = alookup d k2 := by
  induction d with
  | nil => simp [dset, alookup, h]
  | cons p rest ih =>
    obtain ⟨k0, v0⟩ := p
    by_cases h0 : k0 = k
    · subst h0
      simp [dset, alookup, h]
    · simp [dset, h0, alookup, ih]

theorem dset_same (d : List (String × Json)) (k : String) (v : Json)
    (h : alookup d k = some v) : dset d k v = d := by
  induction d with
  | nil => simp [alookup] at h
  | cons p rest ih =>
    obtain ⟨k0, v0⟩ := p
    by_cases h0 : k0 = k
    · subst h0
      simp [alookup] at h
      simp [dset, h]
    · simp [alookup, h0] at h
      simp [dset, h0, ih h]

theorem dhas_dset_self (d : List (String × Json)) (k : String) (v : Json) :
    dhas (dset d k v) k = true := by
  simp [dhas, alookup_dset_self]

theorem alookup_isSome_of_mem (d : List (String × Json)) (k : String) (v : Json)
    (h : (k, v) ∈ d) : (alookup d k).isSome := by
  induction d with
  | nil => simp at h
  | cons p rest ih =>
    obtain ⟨k0, v0⟩ := p
    by_cases h0 : k0 = k
    · simp [alookup, h0]
    · rcases List.mem_cons.mp h with h1 | h1
      · simp at h1
        exact absurd h1.1.symm h0
      · simp only [alookup, if_neg h0]
        exact ih h1

/-! ## Claim C5: save is truncate-in-place, not write-then-replace -/

/-- A fully-populated config with a non-default Gemini key, used as the prior
persisted state in the C5 counterexample. -/
def cfgSecret : Json :=
  Json.obj [("api_configs", Json.obj (DEFAULT_API_CONFIGS.map (fun p =>
    (p.1, Json.obj (if p.1 = "Gemini Native"
                    then dset p.2 "api_key" (Json.str "secret")
                    else p.2)))))]

/-- C5 counterexample: the claim that an interrupted or partial save never
corrupts the readability of the previously persisted configuration is false.
`save_config` truncate-opens the config file in place; interrupted after the
truncation, the file is unreadable and a subsequent load yields the compiled
defaults instead of the prior state `cfgSecret`. -/
theorem save_config_interruption_corrupts :
    load_config (some (some cfgSecret)) = cfgSecret ∧
    fileAfterSteps (some cfgSecret) ((save_config_steps DEFAULT_CONFIG).take 1) = none ∧
    load_config (some (fileAfterSteps (some cfgSecret)
      ((save_config_steps DEFAULT_CONFIG).take 1))) = DEFAULT_CONFIG ∧
    DEFAULT_CONFIG ≠ cfgSecret := by
  refine ⟨rfl, rfl, rfl, ?_⟩
  intro h
  have h1 : configField DEFAULT_CONFIG "Gemini Native" "api_key" = some (Json.str "") := rfl
  have h2 : configField cfgSecret "Gemini Native" "api_key" = some (Json.str "secret") := rfl
  rw [h, h2] at h1
  injection h1 with h3
  injection h3 with h4
  exact absurd h4 (by decide)

/-- C5 amended: `save_config` writes the config file in place (truncate-open,
then a full write).  A completed save leaves the new state readable; a save
interrupted after the truncation leaves the file unreadable, and a subsequent
load falls back to the compiled defaults rather than recovering the prior
state. -/
theorem save_config_inplace_semantics (prior : Option Json) (c : Json) :
    fileAfterSteps prior (save_config_steps c) = some c ∧
    fileAfterSteps prior ((save_config_steps c).take 1) = none ∧
    load_config (some (fileAfterSteps prior ((save_config_steps c).take 1))) =
      DEFAULT_CONFIG :=
  ⟨rfl, rfl, rfl⟩

/-! ## Claim C7: effective model list -/

/-- C7 counterexample: the claim that the effective model list equals the
builtin list followed by each persisted custom model not already present is
false for a persisted empty-string custom model, which `get_model_list`
silently skips (the `if m` truthiness guard). -/
theorem get_model_list_skips_empty_names :
    get_model_list "Gemini Native" [""] =
      ["gemini-2.5-flash-image", "gemini-3-pro-image-preview"] ∧
    effective_models_claim "Gemini Native" [""] =
      ["gemini-2.5-flash-image", "gemini-3-pro-image-preview", ""] ∧
    get_model_list "Gemini Native" [""] ≠ effective_models_claim "Gemini Native" [""] := by
  refine ⟨by decide, by decide, by decide⟩

theorem foldl_models_step (l : List String) (acc : List String) :
    l.foldl (fun acc m => if m ≠ "" ∧ m ∉ acc then acc ++ [m] else acc) acc =
      acc ++ customAdditions acc l := by
  induction l generalizing acc with
  | nil => simp [customAdditions]
  | cons m ms ih =>
    by_cases h : m ≠ "" ∧ m ∉ acc
    · simp only [List.foldl_cons, if_pos h, customAdditions, ih]
      simp [List.append_assoc]
    · simp only [List.foldl_cons, if_neg h, customAdditions, ih]

theorem customAdditions_nodup (l : List String) (acc : List String)
    (h : acc.Nodup) : (acc ++ customAdditions acc l).Nodup := by
  induction l generalizing acc with
  | nil => simpa [customAdditions]
  | cons m ms ih =>
    by_cases hm : m ≠ "" ∧ m ∉ acc
    · rw [customAdditions, if_pos hm, List.append_cons]
      exact ih (acc ++ [m]) (by simp [List.nodup_append, h, hm.2])
    · rw [customAdditions, if_neg hm]
      exact ih acc h

theorem builtin_models_of_nodup (t : String) : (builtin_models_of t).Nodup := by
  rcases h1 : alookup BUILTIN_MODELS t with _ | l
  · simp [builtin_models_of, h1]
  · have h2 : builtin_models_of t = l := by simp [builtin_models_of, h1]
    rw [h2]
    simp only [BUILTIN_MODELS, alookup] at h1
    repeat' split at h1
    all_goals first
      | (injection h1 with h3; subst h3; decide)
      | exact Option.noConfusion h1

/-- C7 amended: the effective model list equals the builtin list followed by
each non-empty persisted custom model not already present (case-sensitive),
in custom insertion order, and it never contains duplicates; builtins precede
every custom addition. -/
theorem get_model_list_characterization (t : String) (custom : List String) :
    get_model_list t custom =
      builtin_models_of t ++ customAdditions (builtin_models_of t) custom ∧
    (get_model_list t custom).Nodup := by
  have he : get_model_list t custom =
      builtin_models_of t ++ customAdditions (builtin_models_of t) custom := by
    simp only [get_model_list]
    exact foldl_models_step custom (builtin_models_of t)
  exact ⟨he, he ▸ customAdditions_nodup custom (builtin_models_of t)
    (builtin_models_of_nodup t)⟩

/-! ## Claim C6: set_api_config updates one field without clobbering others -/

/-- C6: updating only `api_key` for a backend rewrites exactly that field of
the backend's entry: every other field of the entry (in particular `base_url`,
`model_name`, `custom_models`, and any unknown field) keeps its value, every
other backend's entry is untouched, every other top-level key is untouched;
and if the backend entry was absent it is created from the compiled defaults
with only `api_key` replaced. -/
theorem set_api_config_merge_semantics (top acs : List (String × Json)) (t v : String)
    (hac : alookup top "api_configs" = some (Json.obj acs)) :
    (∀ e, alookup acs t = some (Json.obj e) →
      set_api_config (Json.obj top) t (some v) none none =
        Except.ok (Json.obj (dset top "api_configs" (Json.obj (dset acs t
          (Json.obj (dset e "api_key" (Json.str v))))))) ∧
      (∀ k, k ≠ "api_key" → alookup (dset e "api_key" (Json.str v)) k = alookup e k) ∧
      alookup (dset acs t (Json.obj (dset e "api_key" (Json.str v)))) t =
        some (Json.obj (dset e "api_key" (Json.str v))) ∧
      (∀ n, n ≠ t → alookup (dset acs t (Json.obj (dset e "api_key" (Json.str v)))) n =
        alookup acs n) ∧
      (∀ k, k ≠ "api_configs" → alookup (dset top "api_configs" (Json.obj (dset acs t
        (Json.obj (dset e "api_key" (Json.str v)))))) k = alookup top k)) ∧
    (alookup acs t = none →
      set_api_config (Json.obj top) t (some v) none none =
        Except.ok (Json.obj (dset top "api_configs" (Json.obj
          (dset (dset acs t (Json.obj (defaultEntryFor t))) t
            (Json.obj (dset (defaultEntryFor t) "api_key" (Json.str v))))))) ∧
      alookup (dset (dset acs t (Json.obj (defaultEntryFor t))) t
          (Json.obj (dset (defaultEntryFor t) "api_key" (Json.str v)))) t =
        some (Json.obj (dset (defaultEntryFor t) "api_key" (Json.str v))) ∧
      (∀ k, k ≠ "api_key" → alookup (dset (defaultEntryFor t) "api_key" (Json.str v)) k =
        alookup (defaultEntryFor t) k)) := by
  constructor
  · intro e he
    have hd : dhas acs t = true := by simp [dhas, he]
    refine ⟨?_, ?_, ?_, ?_, ?_⟩
    · simp only [set_api_config, hac, hd, if_true, he, applyFieldUpdates]
    · intro k hk
      exact alookup_dset_ne e "api_key" k (Json.str v) (Ne.symm hk)
    · exact alookup_dset_self acs t _
    · intro n hn
      exact alookup_dset_ne acs t n _ (Ne.symm hn)
    · intro k hk
      exact alookup_dset_ne top "api_configs" k _ (Ne.symm hk)
  · intro he
    have hd : dhas acs t = false := by simp [dhas, he]
    refine ⟨?_, ?_, ?_⟩
    · simp only [set_api_config, hac, hd, Bool.false_eq_true, if_false,
        alookup_dset_self, applyFieldUpdates]
    · exact alookup_dset_self _ t _
    · intro k hk
      exact alookup_dset_ne (defaultEntryFor t) "api_key" k (Json.str v) (Ne.symm hk)

def entry6 : List (String × Json) :=
  [("api_key", Json.str "old"), ("base_url", Json.str "https://b"),
   ("model_name", Json.str "mm"), ("custom_models", Json.arr [Json.str "cm"]),
   ("extra", Json.num 7)]

def acs6 : List (String × Json) := [("Gemini Native", Json.obj entry6)]

def top6 : List (String × Json) := [("api_configs", Json.obj acs6)]

/-- C6 witness: the merge theorem applied at a concrete config. -/
theorem set_api_config_merge_witness :
    set_api_config (Json.obj top6) "Gemini Native" (some "k2") none none =
      Except.ok (Json.obj (dset top6 "api_configs" (Json.obj (dset acs6 "Gemini Native"
        (Json.obj (dset entry6 "api_key" (Json.str "k2"))))))) ∧
    alookup (dset entry6 "api_key" (Json.str "k2")) "base_url" = alookup entry6 "base_url" ∧
    alookup (dset entry6 "api_key" (Json.str "k2")) "model_name" = alookup entry6 "model_name" ∧
    alookup (dset entry6 "api_key" (Json.str "k2")) "custom_models" =
      alookup entry6 "custom_models" := by
  have h := (set_api_config_merge_semantics top6 acs6 "Gemini Native" "k2" rfl).1 entry6 rfl
  exact ⟨h.1, h.2.1 "base_url" (by decide), h.2.1 "model_name" (by decide),
    h.2.1 "custom_models" (by decide)⟩

/-! ## Claim C8: add_custom_model then remove_custom_model -/

theorem containsStr_append_self (l : List Json) (s : String) :
    containsStr (l ++ [Json.str s]) s = true := by
  simp [containsStr, List.any_append, jstrEq]

theorem removeFirstStr_append_of_fresh (l : List Json) (s : String)
    (h : containsStr l s = false) : removeFirstStr (l ++ [Json.str s]) s = l := by
  induction l with
  | nil => simp [removeFirstStr, jstrEq]
  | cons j rest ih =>
    rw [containsStr, List.any_cons, Bool.or_eq_false_iff] at h
    obtain ⟨h1, h2⟩ := h
    have h3 := ih h2
    simp [removeFirstStr, h1, h3]

/-- The shape shared by every config that `add_custom_model` persists: the
nested in-place update writing a `custom_models` list. -/
def writeCustoms (top acs e : List (String × Json)) (t : String) (l : List Json) : Json :=
  Json.obj (dset top "api_configs" (Json.obj (dset acs t
    (Json.obj (dset e "custom_models" (Json.arr l))))))

theorem remove_writeCustoms (top acs e : List (String × Json)) (t name : String)
    (l : List Json) (hc : containsStr l name = true) :
    remove_custom_model (writeCustoms top acs e t l) t name =
      Except.ok (true, writeCustoms
        (dset top "api_configs" (Json.obj (dset acs t
          (Json.obj (dset e "custom_models" (Json.arr l))))))
        (dset acs t (Json.obj (dset e "custom_models" (Json.arr l))))
        (dset e "custom_models" (Json.arr l))
        t (removeFirstStr l name)) := by
  simp [remove_custom_model, writeCustoms, alookup_dset_self, hc]

theorem customsRead_writeCustoms (top acs e : List (String × Json)) (t : String)
    (l : List Json) : customsRead (writeCustoms top acs e t l) t = l := by
  simp [customsRead, writeCustoms, alookup_dset_self]

/-- C8 amended: for a name that is non-empty, equal to its own whitespace-strip
(`add_custom_model` persists the stripped name while `remove_custom_model`
matches the name verbatim), and not already present among the persisted custom
models, `add_custom_model` followed by `remove_custom_model` with that name
returns the persisted custom-model list — and hence the effective model
list — to its state prior to the add. -/
theorem add_then_remove_roundtrip (c c2 : Json) (t name : String) (b : Bool)
    (hne : name ≠ "") (htrim : pyStrip name = name)
    (hfresh : containsStr (customsRead c t) name = false)
    (hadd : add_custom_model c t name = Except.ok (b, c2)) :
    ∃ c3, remove_custom_model c2 t name = Except.ok (true, c3) ∧
      customsRead c3 t = customsRead c t ∧
      get_model_list t (readCustomStrings c3 t) =
        get_model_list t (readCustomStrings c t) := by
  have hcond : ¬(name = "" ∨ pyStrip name = "") := by
    rw [htrim]
    simp [hne]
  have hsn : containsStr [Json.str name] name = true := by simp [containsStr, jstrEq]
  have hrfs : removeFirstStr [Json.str name] name = [] := by simp [removeFirstStr, jstrEq]
  cases c with
  | null => simp [add_custom_model, if_neg hcond] at hadd
  | bool b2 => simp [add_custom_model, if_neg hcond] at hadd
  | num n => simp [add_custom_model, if_neg hcond] at hadd
  | str s => simp [add_custom_model, if_neg hcond] at hadd
  | arr l => simp [add_custom_model, if_neg hcond] at hadd
  | obj top =>
    simp only [add_custom_model, if_neg hcond] at hadd
    rw [htrim] at hadd
    rcases h1 : alookup top "api_configs" with _ | v
    · rw [h1] at hadd
      simp only [Except.ok.injEq, Prod.mk.injEq] at hadd
      obtain ⟨hb, hc2⟩ := hadd
      have hcr0 : customsRead (Json.obj top) t = [] := by simp [customsRead, h1]
      subst hc2
      exact ⟨_, remove_writeCustoms top [] [] t name [Json.str name] hsn,
        by rw [customsRead_writeCustoms, hrfs, hcr0],
        by simp [readCustomStrings, customsRead_writeCustoms, hrfs, hcr0]⟩
    · rw [h1] at hadd
      cases v with
      | null => simp at hadd
      | bool b2 => simp at hadd
      | num n => simp at hadd
      | str s => simp at hadd
      | arr l => simp at hadd
      | obj acs =>
        simp only [] at hadd
        rcases h2 : alookup acs t with _ | w
        · rw [h2] at hadd
          simp only [Except.ok.injEq, Prod.mk.injEq] at hadd
          obtain ⟨hb, hc2⟩ := hadd
          have hcr0 : customsRead (Json.obj top) t = [] := by simp [customsRead, h1, h2]
          subst hc2
          exact ⟨_, remove_writeCustoms top acs [] t name [Json.str name] hsn,
            by rw [customsRead_writeCustoms, hrfs, hcr0],
            by simp [readCustomStrings, customsRead_writeCustoms, hrfs, hcr0]⟩
        · rw [h2] at hadd
          cases w with
          | null => simp at hadd
          | bool b2 => simp at hadd
          | num n => simp at hadd
          | str s => simp at hadd
          | arr l => simp at hadd
          | obj e =>
            simp only [] at hadd
            rcases h3 : alookup e "custom_models" with _ | u
            · rw [h3] at hadd
              simp only [Except.ok.injEq, Prod.mk.injEq] at hadd
              obtain ⟨hb, hc2⟩ := hadd
              have hcr0 : customsRead (Json.obj top) t = [] := by
                simp [customsRead, h1, h2, h3]
              subst hc2
              exact ⟨_, remove_writeCustoms top acs e t name [Json.str name] hsn,
                by rw [customsRead_writeCustoms, hrfs, hcr0],
                by simp [readCustomStrings, customsRead_writeCustoms, hrfs, hcr0]⟩
            · rw [h3] at hadd
              cases u with
              | null => simp at hadd
              | bool b2 => simp at hadd
              | num n => simp at hadd
              | str s => simp at hadd
              | obj e2 => simp at hadd
              | arr customs =>
                simp only [] at hadd
                have hcr0 : customsRead (Json.obj top) t = customs := by
                  simp [customsRead, h1, h2, h3]
                rw [hcr0] at hfresh
                rw [if_neg (by simp [hfresh])] at hadd
                simp only [Except.ok.injEq, Prod.mk.injEq] at hadd
                obtain ⟨hb, hc2⟩ := hadd
                subst hc2
                exact ⟨_, remove_writeCustoms top acs e t name (customs ++ [Json.str name])
                    (containsStr_append_self customs name),
                  by rw [customsRead_writeCustoms,
                    removeFirstStr_append_of_fresh customs name hfresh, hcr0],
                  by simp [readCustomStrings, customsRead_writeCustoms,
                    removeFirstStr_append_of_fresh customs name hfresh, hcr0]⟩

def cfg8 : Json :=
  Json.obj [("api_configs", Json.obj [("Gemini Native", Json.obj
    [("api_key", Json.str ""), ("custom_models", Json.arr [Json.str "m"])])])]

def cfg8r : Json :=
  Json.obj [("api_configs", Json.obj [("Gemini Native", Json.obj
    [("api_key", Json.str ""), ("custom_models", Json.arr [])])])]

/-- C8 counterexample: with a name that is already present among the persisted
custom models, `add_custom_model` is a no-op (returns `False`) but
`remove_custom_model` still deletes the model, so add-then-remove does not
return the catalog to its prior state. -/
theorem add_then_remove_not_roundtrip :
    add_custom_model cfg8 "Gemini Native" "m" = Except.ok (false, cfg8) ∧
    remove_custom_model cfg8 "Gemini Native" "m" = Except.ok (true, cfg8r) ∧
    customsRead cfg8 "Gemini Native" = [Json.str "m"] ∧
    customsRead cfg8r "Gemini Native" = [] ∧
    customsRead cfg8r "Gemini Native" ≠ customsRead cfg8 "Gemini Native" := by
  refine ⟨rfl, rfl, rfl, rfl, ?_⟩
  intro h
  have h2 : ([] : List Json) = [Json.str "m"] := h
  exact List.noConfusion h2

def cfg8w : Json :=
  Json.obj [("api_configs", Json.obj [("Gemini Native", Json.obj
    [("custom_models", Json.arr [])])])]

def cfg8add : Json :=
  Json.obj [("api_configs", Json.obj [("Gemini Native", Json.obj
    [("custom_models", Json.arr [Json.str "x"])])])]

/-- C8 witness: the round-trip theorem applied at a concrete config and a
fresh model name. -/
theorem add_then_remove_roundtrip_witness :
    ∃ c3, remove_custom_model cfg8add "Gemini Native" "x" = Except.ok (true, c3) ∧
      customsRead c3 "Gemini Native" = customsRead cfg8w "Gemini Native" ∧
      get_model_list "Gemini Native" (readCustomStrings c3 "Gemini Native") =
        get_model_list "Gemini Native" (readCustomStrings cfg8w "Gemini Native") :=
  add_then_remove_roundtrip cfg8w cfg8add "Gemini Native" "x" true
    (by decide) (by decide) (by decide) rfl

/-! ## Claim C2: fail fast on empty prompt or key -/

/-- C2: an empty (or whitespace-only) prompt or API key makes `generate` fail
immediately with the corresponding `ValueError` (`InvalidInput` kind), before
any SDK client is created and before any backend call is issued. -/
theorem generate_fails_fast_on_empty_inputs (env : GenEnv) (a : GenArgs)
    (h : pyStrip a.prompt = "" ∨ pyStrip a.api_key = "") :
    ((generate env a).result = Except.error GenError.emptyPrompt ∨
     (generate env a).result = Except.error GenError.emptyApiKey) ∧
    (generate env a).clientCreated = false ∧
    (generate env a).apiCalls = 0 := by
  by_cases hp : a.prompt = "" ∨ pyStrip a.prompt = ""
  · simp [generate, if_pos hp]
  · have hk : a.api_key = "" ∨ pyStrip a.api_key = "" := by
      rcases h with h | h
      · exact absurd (Or.inr h) hp
      · exact Or.inr h
    simp [generate, if_neg hp, if_pos hk]

def envW : GenEnv :=
  ⟨true, Except.ok (), Except.ok [], Except.ok none, fun _ _ => Except.error "x"⟩

def argsEmptyPrompt : GenArgs :=
  ⟨"", "key", "gemini-2.5-flash-image", 1, "Default", "Default", "", none, none, "", 0⟩

/-- C2 witness: the fail-fast theorem applied to an empty prompt. -/
theorem generate_fails_fast_witness :
    ((generate envW argsEmptyPrompt).result = Except.error GenError.emptyPrompt ∨
     (generate envW argsEmptyPrompt).result = Except.error GenError.emptyApiKey) ∧
    (generate envW argsEmptyPrompt).clientCreated = false ∧
    (generate envW argsEmptyPrompt).apiCalls = 0 :=
  generate_fails_fast_on_empty_inputs envW argsEmptyPrompt (Or.inl (by decide))

/-! ## Claim C10: media conversion failures are swallowed -/

/-- `env` with the two conversion outcomes replaced. -/
def envWithConversions (env : GenEnv) (r : Except String (List Nat))
    (m : Except String (Option Nat)) : GenEnv :=
  GenEnv.mk env.importOk env.clientResult r m env.generateContent

theorem generate_env_congr (env env2 : GenEnv) (a : GenArgs)
    (h1 : env.importOk = env2.importOk)
    (h2 : env.clientResult = env2.clientResult)
    (h3 : env.generateContent = env2.generateContent)
    (h4 : buildContents env a = buildContents env2 a) :
    generate env a = generate env2 a := by
  cases env
  cases env2
  simp only at h1 h2 h3
  subst h1
  subst h2
  subst h3
  simp only [generate, generateTail, h4]

theorem buildContents_ref_error (env : GenEnv) (a : GenArgs) (msg : String)
    (h : env.tensorToPil = Except.error msg) :
    buildContents env a =
      buildContents (envWithConversions env (Except.ok []) env.maskToPil) a := by
  cases a.ref_images <;> cases a.mask <;> simp [buildContents, envWithConversions, h]

theorem buildContents_mask_error (env : GenEnv) (a : GenArgs) (msg : String)
    (h : env.maskToPil = Except.error msg) :
    buildContents env a =
      buildContents (envWithConversions env env.tensorToPil (Except.ok none)) a := by
  cases a.ref_images <;> cases a.mask <;> simp [buildContents, envWithConversions, h]

/-- C10: when converting the reference images or the mask raises, `generate`
behaves exactly as if the failed input had produced nothing: the failed input
is omitted from the request contents and generation proceeds; the conversion
error is never surfaced in the outcome. -/
theorem conversion_failures_are_swallowed (env : GenEnv) (a : GenArgs) :
    (∀ msg, env.tensorToPil = Except.error msg →
      generate env a = generate (envWithConversions env (Except.ok []) env.maskToPil) a) ∧
    (∀ msg, env.maskToPil = Except.error msg →
      generate env a = generate (envWithConversions env env.tensorToPil (Except.ok none)) a) := by
  constructor
  · intro msg h
    exact generate_env_congr _ _ a rfl rfl rfl (buildContents_ref_error env a msg h)
  · intro msg h
    exact generate_env_congr _ _ a rfl rfl rfl (buildContents_mask_error env a msg h)

def envConvFail : GenEnv :=
  ⟨true, Except.ok (), Except.error "bad ref", Except.error "bad mask",
    fun _ _ => Except.error "boom"⟩

def argsConv : GenArgs :=
  ⟨"a cat", "key", "gemini-2.5-flash-image", 1, "Default", "Default", "",
    some 2, some (), "", 0⟩

/-- C10 witness: the conversion-failure theorem applied at a concrete
environment whose reference-image conversion raises. -/
theorem conversion_failures_witness :
    generate envConvFail argsConv =
      generate (envWithConversions envConvFail (Except.ok []) envConvFail.maskToPil)
        argsConv :=
  (conversion_failures_are_swallowed envConvFail argsConv).1 "bad ref" rfl

/-! ## Claim C4: reference-image count limits -/

theorem generate_validated (env : GenEnv) (a : GenArgs)
    (hp : ¬(a.prompt = "" ∨ pyStrip a.prompt = ""))
    (hk : ¬(a.api_key = "" ∨ pyStrip a.api_key = ""))
    (him : env.importOk = true)
    (hcl : env.clientResult = Except.ok ()) :
    generate env a = generateTail env a := by
  simp [generate, if_neg hp, if_neg hk, him, hcl]

theorem classifyApiError_ne_refLimit (model raw m : String) :
    classifyApiError model raw ≠ GenError.refLimitViolation m := by
  unfold classifyApiError
  repeat' split
  all_goals intro h
  all_goals exact GenError.noConfusion h

theorem genLoop_error_classify
    (call : Nat → List ContentItem → Except String GeminiResponse)
    (model : String) (contents : List ContentItem) :
    ∀ k calls imgs txts lastR e n,
    genLoop call model contents k calls imgs txts lastR = Except.error (e, n) →
    ∃ raw, e = classifyApiError model raw := by
  intro k
  induction k with
  | zero =>
    intro calls imgs txts lastR e n h
    simp [genLoop] at h
  | succ k ih =>
    intro calls imgs txts lastR e n h
    rcases hc : call calls contents with e2 | resp
    · simp only [genLoop, hc, Except.error.injEq, Prod.mk.injEq] at h
      exact ⟨e2, h.1.symm⟩
    · simp only [genLoop, hc] at h
      exact ih (calls + 1) _ _ (some resp) e n h

/-- C4 (validator modelled from the spec, `utils.py` being outside the given
sources): with a valid prompt, key, SDK and client, a `(backend, model)` pair
registered in `MODEL_REF_IMAGE_LIMITS` whose reference-image count falls
outside the inclusive range makes `generate` fail with the constraint
violation before any request contents are built and before any backend call;
a model absent from the limit table never produces that failure. -/
theorem reference_limit_validation (env : GenEnv) (a : GenArgs)
    (hp : ¬(a.prompt = "" ∨ pyStrip a.prompt = ""))
    (hk : ¬(a.api_key = "" ∨ pyStrip a.api_key = ""))
    (him : env.importOk = true)
    (hcl : env.clientResult = Except.ok ()) :
    (∀ lo hi, alookup MODEL_REF_IMAGE_LIMITS
        (effective_model a.custom_model a.model_name) = some (lo, hi) →
      ¬(lo ≤ refCount a ∧ refCount a ≤ hi) →
      (∃ m, (generate env a).result = Except.error (GenError.refLimitViolation m)) ∧
      (generate env a).apiCalls = 0 ∧
      (generate env a).contents = []) ∧
    (alookup MODEL_REF_IMAGE_LIMITS
        (effective_model a.custom_model a.model_name) = none →
      ∀ m, (generate env a).result ≠ Except.error (GenError.refLimitViolation m)) := by
  rw [generate_validated env a hp hk him hcl]
  constructor
  · intro lo hi hlook hout
    have hv : validate_ref_images "Gemini" (effective_model a.custom_model a.model_name)
        (refCount a) MODEL_REF_IMAGE_LIMITS =
        Except.error ("[APIImage Gemini] Reference image count " ++
          toString (refCount a) ++ " outside allowed range for model " ++
          effective_model a.custom_model a.model_name) := by
      simp [validate_ref_images, hlook, if_neg hout]
    simp [generateTail, hv]
  · intro hlook m
    have hv : validate_ref_images "Gemini" (effective_model a.custom_model a.model_name)
        (refCount a) MODEL_REF_IMAGE_LIMITS = Except.ok () := by
      simp [validate_ref_images, hlook]
    simp only [generateTail, hv]
    rcases hr : genLoop env.generateContent (effective_model a.custom_model a.model_name)
        (buildContents env a) a.num_images 0 [] [] none with ⟨err, n⟩ | ⟨imgs, txts, lastR, n⟩
    · obtain ⟨raw, he⟩ := genLoop_error_classify env.generateContent _ _
        a.num_images 0 [] [] none err n hr
      subst he
      simp only [finishLoop, hr]
      intro h
      injection h with h2
      exact classifyApiError_ne_refLimit _ raw m h2
    · simp only [finishLoop, hr]
      cases lastR <;> by_cases hi : imgs = [] <;> intro h <;> simp [hi] at h

/-! ## Claim C1: loop semantics and mid-loop failure -/

def reference_limit_args : GenArgs :=
  ⟨"a cat", "key", "gemini-2.5-flash-image", 1, "Default", "Default", "",
    some 5, none, "", 0⟩

/-- C4 witness: the validation theorem applied at a request carrying 5
reference images against the (0, 3) limit of gemini-2.5-flash-image. -/
theorem reference_limit_witness :
    (∃ m, (generate envW reference_limit_args).result =
      Except.error (GenError.refLimitViolation m)) ∧
    (generate envW reference_limit_args).apiCalls = 0 ∧
    (generate envW reference_limit_args).contents = [] :=
  (reference_limit_validation envW reference_limit_args
    (by decide) (by decide) rfl rfl).1 0 3 (by decide) (by decide)

/-- The images and texts accumulated over the first `n` loop iterations when
iteration `i` receives response `resp i`. -/
def loopAcc (resp : Nat → GeminiResponse) : Nat → List (List Nat) × List String
  | 0 => ([], [])
  | n + 1 => processParts (resp n).parts (loopAcc resp n)

/-- `loopAcc` generalized to a starting iteration index and accumulator. -/
def iterAcc (resp : Nat → GeminiResponse) :
    Nat → Nat → List (List Nat) × List String → List (List Nat) × List String
  | _, 0, acc => acc
  | start, k + 1, acc => iterAcc resp (start + 1) k (processParts (resp start).parts acc)

theorem iterAcc_succ (resp : Nat → GeminiResponse) (k : Nat) :
    ∀ start acc, iterAcc resp start (k + 1) acc =
      processParts (resp (start + k)).parts (iterAcc resp start k acc) := by
  induction k with
  | zero => intro start acc; simp [iterAcc]
  | succ k ih =>
    intro start acc
    calc iterAcc resp start (k + 1 + 1) acc
        = iterAcc resp (start + 1) (k + 1) (processParts (resp start).parts acc) := rfl
      _ = processParts (resp (start + 1 + k)).parts
            (iterAcc resp (start + 1) k (processParts (resp start).parts acc)) := ih (start + 1) _
      _ = processParts (resp (start + (k + 1))).parts (iterAcc resp start (k + 1) acc) := by
            rw [show start + 1 + k = start + (k + 1) by omega]
            rfl

theorem iterAcc_eq_loopAcc (resp : Nat → GeminiResponse) :
    ∀ n, iterAcc resp 0 n ([], []) = loopAcc resp n := by
  intro n
  induction n with
  | zero => rfl
  | succ n ih =>
    rw [iterAcc_succ]
    simp [loopAcc, ih]

theorem genLoop_all_ok (call : Nat → List ContentItem → Except String GeminiResponse)
    (model : String) (contents : List ContentItem) (resp : Nat → GeminiResponse) :
    ∀ k calls imgs txts lastR,
    (∀ i, i < k → call (calls + i) contents = Except.ok (resp (calls + i))) →
    genLoop call model contents k calls imgs txts lastR =
      Except.ok ((iterAcc resp calls k (imgs, txts)).1,
        (iterAcc resp calls k (imgs, txts)).2,
        (if k = 0 then lastR else some (resp (calls + k - 1))), calls + k) := by
  intro k
  induction k with
  | zero =>
    intro calls imgs txts lastR hok
    simp [genLoop, iterAcc]
  | succ k ih =>
    intro calls imgs txts lastR hok
    have hc : call calls contents = Except.ok (resp calls) := by
      have h0 := hok 0 (Nat.succ_pos k)
      simpa using h0
    simp only [genLoop, hc]
    have hok2 : ∀ i, i < k →
        call (calls + 1 + i) contents = Except.ok (resp (calls + 1 + i)) := by
      intro i hi
      have h1 := hok (i + 1) (by omega)
      rw [show calls + (i + 1) = calls + 1 + i by omega] at h1
      exact h1
    rw [ih (calls + 1) (processParts (resp calls).parts (imgs, txts)).1
      (processParts (resp calls).parts (imgs, txts)).2 (some (resp calls)) hok2]
    have e1 : iterAcc resp calls (k + 1) (imgs, txts) =
        iterAcc resp (calls + 1) k ((processParts (resp calls).parts (imgs, txts)).1,
          (processParts (resp calls).parts (imgs, txts)).2) := rfl
    rw [e1]
    by_cases hk : k = 0
    · subst hk
      simp
    · have h2 : calls + 1 + k - 1 = calls + (k + 1) - 1 := by omega
      have h3 : calls + 1 + k = calls + (k + 1) := by omega
      simp [hk, h2, h3]

theorem genLoop_first_fail (call : Nat → List ContentItem → Except String GeminiResponse)
    (model : String) (contents : List ContentItem) :
    ∀ k n calls imgs txts lastR e,
    (∀ i, i < k → ∃ r, call (calls + i) contents = Except.ok r) →
    call (calls + k) contents = Except.error e →
    k < n →
    genLoop call model contents n calls imgs txts lastR =
      Except.error (classifyApiError model e, calls + k + 1) := by
  intro k
  induction k with
  | zero =>
    intro n calls imgs txts lastR e hok hfail hn
    cases n with
    | zero => omega
    | succ n =>
      have hf : call calls contents = Except.error e := by simpa using hfail
      simp [genLoop, hf]
  | succ k ih =>
    intro n calls imgs txts lastR e hok hfail hn
    cases n with
    | zero => omega
    | succ n =>
      obtain ⟨r, hr⟩ := hok 0 (Nat.succ_pos k)
      have hr0 : call calls contents = Except.ok r := by simpa using hr
      simp only [genLoop, hr0]
      have hok2 : ∀ i, i < k → ∃ r2, call (calls + 1 + i) contents = Except.ok r2 := by
        intro i hi
        obtain ⟨r2, h2⟩ := hok (i + 1) (by omega)
        rw [show calls + (i + 1) = calls + 1 + i by omega] at h2
        exact ⟨r2, h2⟩
      have hfail2 : call (calls + 1 + k) contents = Except.error e := by
        rw [show calls + 1 + k = calls + (k + 1) by omega]
        exact hfail
      have hrec := ih n (calls + 1) (processParts r.parts (imgs, txts)).1
        (processParts r.parts (imgs, txts)).2 (some r) e hok2 hfail2 (by omega)
      rw [hrec, show calls + 1 + k + 1 = calls + (k + 1) + 1 by omega]

theorem finishLoop_ok_apiCalls (contents : List ContentItem) (imgs : List (List Nat))
    (txts : List String) (lastR : Option GeminiResponse) (n : Nat) :
    (finishLoop contents (Except.ok (imgs, txts, lastR, n))).apiCalls = n := by
  by_cases hi : imgs = []
  · cases lastR <;> simp [finishLoop, hi]
  · simp [finishLoop, hi]

theorem finishLoop_ok_empty (contents : List ContentItem) (txts : List String)
    (r2 : GeminiResponse) (n : Nat) :
    (finishLoop contents (Except.ok ([], txts, some r2, n))).result =
      Except.error (GenError.generationFailed (buildErrorParts r2 txts
        (if txts = [] then "" else String.intercalate "\n" txts))) := by
  simp [finishLoop]

theorem finishLoop_ok_nonempty (contents : List ContentItem) (imgs : List (List Nat))
    (txts : List String) (lastR : Option GeminiResponse) (n : Nat) (h : imgs ≠ []) :
    (finishLoop contents (Except.ok (imgs, txts, lastR, n))).result =
      Except.ok (imgs, (if txts = [] then "" else String.intercalate "\n" txts)) := by
  simp [finishLoop, h]

theorem generateTail_all_ok (env : GenEnv) (a : GenArgs) (resp : Nat → GeminiResponse)
    (hv : validate_ref_images "Gemini" (effective_model a.custom_model a.model_name)
      (refCount a) MODEL_REF_IMAGE_LIMITS = Except.ok ())
    (hall : ∀ i, i < a.num_images →
      env.generateContent i (buildContents env a) = Except.ok (resp i)) :
    generateTail env a = finishLoop (buildContents env a)
      (Except.ok ((loopAcc resp a.num_images).1, (loopAcc resp a.num_images).2,
        (if a.num_images = 0 then none else some (resp (a.num_images - 1))),
        a.num_images)) := by
  simp only [generateTail, hv]
  have hok : ∀ i, i < a.num_images →
      env.generateContent (0 + i) (buildContents env a) = Except.ok (resp (0 + i)) := by
    intro i hi
    simpa using hall i hi
  rw [genLoop_all_ok env.generateContent _ _ resp a.num_images 0 [] [] none hok]
  rw [iterAcc_eq_loopAcc]
  simp

/-- C1 amended: with valid inputs and N requested images, `generate` issues
exactly N sequential backend invocations when every invocation succeeds, and
the empty-result failure is raised precisely when the N successful iterations
extracted zero images; but if invocation k fails, the call aborts immediately
with the classified error after k+1 invocations, discarding any images the
earlier iterations produced. -/
theorem generate_loop_invocations (env : GenEnv) (a : GenArgs)
    (resp : Nat → GeminiResponse)
    (hp : ¬(a.prompt = "" ∨ pyStrip a.prompt = ""))
    (hk : ¬(a.api_key = "" ∨ pyStrip a.api_key = ""))
    (him : env.importOk = true)
    (hcl : env.clientResult = Except.ok ())
    (hv : validate_ref_images "Gemini" (effective_model a.custom_model a.model_name)
      (refCount a) MODEL_REF_IMAGE_LIMITS = Except.ok ())
    (hn : 1 ≤ a.num_images) :
    ((∀ i, i < a.num_images →
        env.generateContent i (buildContents env a) = Except.ok (resp i)) →
      (generate env a).apiCalls = a.num_images ∧
      ((loopAcc resp a.num_images).1 = [] →
        (generate env a).result = Except.error (GenError.generationFailed
          (buildErrorParts (resp (a.num_images - 1)) (loopAcc resp a.num_images).2
            (if (loopAcc resp a.num_images).2 = [] then ""
             else String.intercalate "\n" (loopAcc resp a.num_images).2)))) ∧
      ((loopAcc resp a.num_images).1 ≠ [] →
        (generate env a).result = Except.ok ((loopAcc resp a.num_images).1,
          (if (loopAcc resp a.num_images).2 = [] then ""
           else String.intercalate "\n" (loopAcc resp a.num_images).2)))) ∧
    (∀ k e, k < a.num_images →
      (∀ i, i < k → ∃ r, env.generateContent i (buildContents env a) = Except.ok r) →
      env.generateContent k (buildContents env a) = Except.error e →
      (generate env a).result =
        Except.error (classifyApiError (effective_model a.custom_model a.model_name) e) ∧
      (generate env a).apiCalls = k + 1) := by
  have hn0 : a.num_images ≠ 0 := by omega
  constructor
  · intro hall
    have hrw : generate env a = finishLoop (buildContents env a)
        (Except.ok ((loopAcc resp a.num_images).1, (loopAcc resp a.num_images).2,
          some (resp (a.num_images - 1)), a.num_images)) := by
      rw [generate_validated env a hp hk him hcl,
        generateTail_all_ok env a resp hv hall, if_neg hn0]
    rw [hrw]
    refine ⟨finishLoop_ok_apiCalls _ _ _ _ _, ?_, ?_⟩
    · intro hempty
      rw [hempty]
      exact finishLoop_ok_empty _ _ _ _
    · intro hne
      exact finishLoop_ok_nonempty _ _ _ _ _ hne
  · intro k e hk2 hok hfail
    have hok0 : ∀ i, i < k → ∃ r,
        env.generateContent (0 + i) (buildContents env a) = Except.ok r := by
      intro i hi
      obtain ⟨r, h2⟩ := hok i hi
      exact ⟨r, by simpa using h2⟩
    have hfail0 : env.generateContent (0 + k) (buildContents env a) = Except.error e := by
      simpa using hfail
    have hrw : generate env a = finishLoop (buildContents env a)
        (Except.error (classifyApiError
          (effective_model a.custom_model a.model_name) e, 0 + k + 1)) := by
      rw [generate_validated env a hp hk him hcl]
      simp only [generateTail, hv]
      rw [genLoop_first_fail env.generateContent _ _ k a.num_images 0 [] [] none e
        hok0 hfail0 hk2]
    rw [hrw]
    constructor
    · simp [finishLoop]
    · simp [finishLoop]

def respImg : GeminiResponse :=
  ⟨[⟨false, none, some ⟨some [1], RawData.other⟩⟩], []⟩

def envC1 : GenEnv :=
  ⟨true, Except.ok (), Except.ok [], Except.ok none,
    fun i _ => if i = 0 then Except.ok respImg else Except.error "boom"⟩

def argsC1 : GenArgs :=
  ⟨"a cat", "key", "gemini-2.5-flash-image", 3, "Default", "Default", "",
    none, none, "", 0⟩

/-- C1 counterexample: with N = 3 requested images, invocation 1 produces an
image and invocation 2 raises; the claim says the aggregated image from the
successful iteration is still returned with no overall failure, but the code
aborts the whole call with the classified error after only 2 of the 3
invocations, discarding the image. -/
theorem generate_aborts_discarding_partial :
    (processParts respImg.parts ([], [])).1 = [[1]] ∧
    (generate envC1 argsC1).result = Except.error (GenError.apiOtherError "boom") ∧
    (generate envC1 argsC1).apiCalls = 2 := by
  refine ⟨by decide, by decide, by decide⟩

def envC1W : GenEnv :=
  ⟨true, Except.ok (), Except.ok [], Except.ok none, fun _ _ => Except.ok respImg⟩

def argsC1W : GenArgs :=
  ⟨"a cat", "key", "gemini-2.5-flash-image", 1, "Default", "Default", "",
    none, none, "", 0⟩

/-- C1 witness: the loop-invocation theorem applied at a concrete environment
whose single invocation succeeds with one image. -/
theorem generate_loop_invocations_witness :
    (generate envC1W argsC1W).apiCalls = 1 ∧
    (generate envC1W argsC1W).result = Except.ok ([[1]], "") := by
  have h := generate_loop_invocations envC1W argsC1W (fun _ => respImg)
    (by decide) (by decide) rfl rfl rfl (by decide)
  have h2 := h.1 (fun i hi => rfl)
  refine ⟨h2.1, ?_⟩
  have h3 := h2.2.2 (by decide)
  exact h3.trans (by decide)

/-! ## Claim C3: empty-result failure and its diagnostics -/

theorem mem_candDiagnostics (x : String) (ep : List String) (c : Candidate)
    (h : x ∈ ep) : x ∈ candDiagnostics ep c := by
  simp only [candDiagnostics]
  repeat' split
  all_goals simp [h, List.mem_append]

theorem candDiagnostics_has_blocked (ep : List String) (c : Candidate) (r : String)
    (hf : c.finish_reason = some r) (h1 : r ≠ "STOP") (h2 : r ≠ "FinishReason.STOP") :
    ("Blocked: " ++ r) ∈ candDiagnostics ep c := by
  simp only [candDiagnostics, hf, if_pos (And.intro h1 h2)]
  split <;> simp

theorem candDiagnostics_has_safety (ep : List String) (c : Candidate)
    (h : blockedCats c ≠ []) :
    ("Safety: " ++ String.intercalate ", " (blockedCats c)) ∈ candDiagnostics ep c := by
  simp only [candDiagnostics, if_pos h]
  simp

theorem mem_foldl_candDiagnostics (x : String) (l : List Candidate) :
    ∀ ep, x ∈ ep → x ∈ l.foldl candDiagnostics ep := by
  induction l with
  | nil => intro ep h; simpa using h
  | cons c cs ih =>
    intro ep h
    simp only [List.foldl_cons]
    exact ih _ (mem_candDiagnostics x ep c h)

theorem foldl_candDiagnostics_adds (l : List Candidate) (c : Candidate) (x : String)
    (hc : c ∈ l) (hx : ∀ ep, x ∈ candDiagnostics ep c) :
    ∀ ep, x ∈ l.foldl candDiagnostics ep := by
  induction l with
  | nil => simp at hc
  | cons c2 cs ih =>
    intro ep
    simp only [List.foldl_cons]
    rcases List.mem_cons.mp hc with h | h
    · subst h
      exact mem_foldl_candDiagnostics x cs _ (hx ep)
    · exact ih h _

theorem mem_buildErrorParts (r : GeminiResponse) (txts : List String) (tr : String)
    (x : String) (h : x ∈ r.candidates.foldl candDiagnostics []) :
    x ∈ buildErrorParts r txts tr := by
  simp only [buildErrorParts]
  by_cases ht : txts = []
  · have hne := List.ne_nil_of_mem h
    simp [ht, hne, h]
  · have hx2 : x ∈ (r.candidates.foldl candDiagnostics []) ++
        ["Model response: " ++ pyTake tr 500] := List.mem_append_left _ h
    have hne := List.ne_nil_of_mem hx2
    simp [ht, hne, h]

theorem mem_buildErrorParts_text (r : GeminiResponse) (txts : List String) (tr : String)
    (ht : txts ≠ []) :
    ("Model response: " ++ pyTake tr 500) ∈ buildErrorParts r txts tr := by
  simp only [buildErrorParts]
  have hx : ("Model response: " ++ pyTake tr 500) ∈
      (r.candidates.foldl candDiagnostics []) ++
        ["Model response: " ++ pyTake tr 500] := by simp
  have hne := List.ne_nil_of_mem hx
  simp [ht, hne]

/-- The `error_parts` of the empty-result failure for a run whose iteration
`i` received response `resp i`. -/
def emptyResultParts (resp : Nat → GeminiResponse) (n : Nat) : List String :=
  buildErrorParts (resp (n - 1)) (loopAcc resp n).2
    (if (loopAcc resp n).2 = [] then ""
     else String.intercalate "\n" (loopAcc resp n).2)

/-- C3 amended: when every loop iteration succeeds and zero images were
extracted in total, `generate` raises the classified generation failure and
never returns an empty image result; its message parts include the non-normal
finish reasons and blocked safety ratings of the FINAL iteration's response
and the text commentary accumulated across all iterations (diagnostics from
earlier iterations' responses are not inspected). -/
theorem generate_empty_result_diagnostics (env : GenEnv) (a : GenArgs)
    (resp : Nat → GeminiResponse)
    (hp : ¬(a.prompt = "" ∨ pyStrip a.prompt = ""))
    (hk : ¬(a.api_key = "" ∨ pyStrip a.api_key = ""))
    (him : env.importOk = true)
    (hcl : env.clientResult = Except.ok ())
    (hv : validate_ref_images "Gemini" (effective_model a.custom_model a.model_name)
      (refCount a) MODEL_REF_IMAGE_LIMITS = Except.ok ())
    (hn : 1 ≤ a.num_images)
    (hall : ∀ i, i < a.num_images →
      env.generateContent i (buildContents env a) = Except.ok (resp i))
    (hempty : (loopAcc resp a.num_images).1 = []) :
    (generate env a).result = Except.error (GenError.generationFailed
      (emptyResultParts resp a.num_images)) ∧
    (∀ r2, (generate env a).result ≠ Except.ok r2) ∧
    (∀ c, c ∈ (resp (a.num_images - 1)).candidates → ∀ s, c.finish_reason = some s →
      s ≠ "STOP" → s ≠ "FinishReason.STOP" →
      ("Blocked: " ++ s) ∈ emptyResultParts resp a.num_images) ∧
    (∀ c, c ∈ (resp (a.num_images - 1)).candidates → blockedCats c ≠ [] →
      ("Safety: " ++ String.intercalate ", " (blockedCats c)) ∈
        emptyResultParts resp a.num_images) ∧
    ((loopAcc resp a.num_images).2 ≠ [] →
      ("Model response: " ++ pyTake
        (if (loopAcc resp a.num_images).2 = [] then ""
         else String.intercalate "\n" (loopAcc resp a.num_images).2) 500) ∈
        emptyResultParts resp a.num_images) := by
  have hn0 : a.num_images ≠ 0 := by omega
  have hrw : generate env a = finishLoop (buildContents env a)
      (Except.ok ((loopAcc resp a.num_images).1, (loopAcc resp a.num_images).2,
        some (resp (a.num_images - 1)), a.num_images)) := by
    rw [generate_validated env a hp hk him hcl,
      generateTail_all_ok env a resp hv hall, if_neg hn0]
  have hres : (generate env a).result = Except.error (GenError.generationFailed
      (emptyResultParts resp a.num_images)) := by
    rw [hrw, hempty]
    exact finishLoop_ok_empty _ _ _ _
  refine ⟨hres, ?_, ?_, ?_, ?_⟩
  · intro r2 h2
    rw [hres] at h2
    exact Except.noConfusion h2
  · intro c hc s hf h1 h2
    exact mem_buildErrorParts _ _ _ _
      (foldl_candDiagnostics_adds _ c _ hc
        (fun ep => candDiagnostics_has_blocked ep c s hf h1 h2) [])
  · intro c hc hb
    exact mem_buildErrorParts _ _ _ _
      (foldl_candDiagnostics_adds _ c _ hc
        (fun ep => candDiagnostics_has_safety ep c hb) [])
  · intro ht
    exact mem_buildErrorParts_text _ _ _ ht

def respSafety : GeminiResponse := ⟨[], [⟨none, [⟨"HARM", "HIGH", true⟩]⟩]⟩

def respBland : GeminiResponse := ⟨[], []⟩

def envC3 : GenEnv :=
  ⟨true, Except.ok (), Except.ok [], Except.ok none,
    fun i _ => if i = 0 then Except.ok respSafety else Except.ok respBland⟩

def argsC3 : GenArgs :=
  ⟨"a cat", "key", "gemini-2.5-flash-image", 2, "Default", "Default", "",
    none, none, "", 0⟩

/-- C3 counterexample: iteration 1's response carries a blocked safety rating
(an available diagnostic signal) but the final empty-result error is built
from the last iteration's response only, so the message omits the signal. -/
theorem generate_empty_result_drops_earlier_diagnostics :
    ((respSafety.candidates.any fun c =>
      c.safety_ratings.any fun r2 => r2.blocked) = true) ∧
    (generate envC3 argsC3).result =
      Except.error (GenError.generationFailed ["No image data in response"]) := by
  refine ⟨by decide, by decide⟩

def respFinish : GeminiResponse := ⟨[], [⟨some "SAFETY", []⟩]⟩

def envC3W : GenEnv :=
  ⟨true, Except.ok (), Except.ok [], Except.ok none, fun _ _ => Except.ok respFinish⟩

def argsC3W : GenArgs :=
  ⟨"a cat", "key", "gemini-2.5-flash-image", 1, "Default", "Default", "",
    none, none, "", 0⟩

/-- C3 witness: the diagnostics theorem applied at a single-iteration run whose
response carries a non-normal finish reason and no image. -/
theorem generate_empty_result_diagnostics_witness :
    (generate envC3W argsC3W).result =
      Except.error (GenError.generationFailed ["Blocked: SAFETY"]) ∧
    ("Blocked: SAFETY") ∈ emptyResultParts (fun _ => respFinish) 1 := by
  have h := generate_empty_result_diagnostics envC3W argsC3W (fun _ => respFinish)
    (by decide) (by decide) rfl rfl rfl (by decide) (fun i hi => rfl) (by decide)
  refine ⟨h.1.trans (by decide), ?_⟩
  exact h.2.2.1 ⟨some "SAFETY", []⟩ (by decide) "SAFETY" rfl (by decide) (by decide)

/-! ## Claim C9: migration is idempotent and purely additive -/

theorem foldl_insert_preserve (ds : List (String × Json)) :
    ∀ e k v, alookup e k = some v → alookup (ds.foldl insertIfMissing e) k = some v := by
  induction ds with
  | nil => intro e k v h; simpa using h
  | cons kv rest ih =>
    intro e k v h
    simp only [List.foldl_cons]
    apply ih
    by_cases hd : dhas e kv.1
    · simpa [insertIfMissing, hd] using h
    · simp only [insertIfMissing, hd, Bool.false_eq_true, if_false]
      by_cases hk : kv.1 = k
      · subst hk
        simp [dhas, h] at hd
      · rw [alookup_dset_ne _ _ _ _ hk]
        exact h

theorem foldl_insert_has (ds : List (String × Json)) (e : List (String × Json))
    (k : String) (h : dhas e k = true) : dhas (ds.foldl insertIfMissing e) k = true := by
  simp only [dhas, Option.isSome_iff_exists] at h ⊢
  obtain ⟨v, hv⟩ := h
  exact ⟨v, foldl_insert_preserve ds e k v hv⟩

theorem foldl_insert_mem_has (ds : List (String × Json)) :
    ∀ e kv, kv ∈ ds → dhas (ds.foldl insertIfMissing e) kv.1 = true := by
  induction ds with
  | nil => intro e kv h; simp at h
  | cons kv2 rest ih =>
    intro e kv h
    simp only [List.foldl_cons]
    rcases List.mem_cons.mp h with h1 | h1
    · subst h1
      apply foldl_insert_has
      by_cases hd : dhas e kv.1
      · simp [insertIfMissing, hd]
      · simp [insertIfMissing, hd, dhas_dset_self]
    · exact ih _ kv h1

theorem foldl_insert_noop (ds : List (String × Json)) :
    ∀ e, (∀ kv, kv ∈ ds → dhas e kv.1 = true) → ds.foldl insertIfMissing e = e := by
  induction ds with
  | nil => intro e _; rfl
  | cons kv rest ih =>
    intro e hall
    simp only [List.foldl_cons, insertIfMissing, hall kv (List.mem_cons_self kv rest),
      if_true]
    exact ih e (fun kv2 h2 => hall kv2 (List.mem_cons_of_mem kv h2))

theorem foldl_insert_fills (ds : List (String × Json)) :
    ∀ e k dv, (ds.map Prod.fst).Nodup → alookup ds k = some dv →
    alookup e k = none → alookup (ds.foldl insertIfMissing e) k = some dv := by
  induction ds with
  | nil => intro e k dv _ h _; simp [alookup] at h
  | cons kv rest ih =>
    intro e k dv hnd h he
    simp only [List.foldl_cons]
    by_cases hk : kv.1 = k
    · have hdv : kv.2 = dv := by
        obtain ⟨k0, v0⟩ := kv
        simp only [alookup, if_pos hk] at h
        simpa using h
      subst hdv
      have hd : dhas e kv.1 = false := by simp [dhas, hk, he]
      have h1 : alookup (insertIfMissing e kv) k = some kv.2 := by
        simp only [insertIfMissing, hd, Bool.false_eq_true, if_false]
        rw [← hk]
        exact alookup_dset_self e kv.1 kv.2
      exact foldl_insert_preserve rest _ k kv.2 h1
    · have h2 : alookup rest k = some dv := by
        obtain ⟨k0, v0⟩ := kv
        simp only [alookup, if_neg hk] at h
        exact h
      have hnd2 : (rest.map Prod.fst).Nodup := by
        simpa using (List.nodup_cons.mp (by simpa using hnd)).2
      apply ih _ k dv hnd2 h2
      by_cases hd : dhas e kv.1
      · simpa [insertIfMissing, hd] using he
      · simp only [insertIfMissing, hd, Bool.false_eq_true, if_false]
        rw [alookup_dset_ne _ _ _ _ hk]
        exact he

theorem ensureEntryKeys_preserve (defaults e : List (String × Json)) (k : String)
    (v : Json) (h : alookup e k = some v) :
    alookup (ensureEntryKeys defaults e) k = some v := by
  unfold ensureEntryKeys
  apply foldl_insert_preserve
  by_cases hd : dhas e "custom_models"
  · simpa [hd]
  · simp only [hd, Bool.false_eq_true, if_false]
    by_cases hk : ("custom_models" : String) = k
    · subst hk
      simp [dhas, h] at hd
    · rw [alookup_dset_ne _ _ _ _ hk]
      exact h

theorem ensureEntryKeys_has_cm (defaults e : List (String × Json)) :
    dhas (ensureEntryKeys defaults e) "custom_models" = true := by
  unfold ensureEntryKeys
  apply foldl_insert_has
  by_cases hd : dhas e "custom_models"
  · simp [hd]
  · simp [hd, dhas_dset_self]

theorem ensureEntryKeys_has_defaults (defaults e : List (String × Json))
    (kv : String × Json) (h : kv ∈ defaults) :
    dhas (ensureEntryKeys defaults e) kv.1 = true := by
  unfold ensureEntryKeys
  exact foldl_insert_mem_has defaults _ kv h

theorem ensureEntryKeys_idem (defaults e : List (String × Json))
    (hcm : dhas e "custom_models" = true)
    (hall : ∀ kv, kv ∈ defaults → dhas e kv.1 = true) :
    ensureEntryKeys defaults e = e := by
  unfold ensureEntryKeys
  rw [if_pos hcm]
  exact foldl_insert_noop defaults e hall

theorem ensureEntryKeys_twice (defaults e : List (String × Json)) :
    ensureEntryKeys defaults (ensureEntryKeys defaults e) = ensureEntryKeys defaults e :=
  ensureEntryKeys_idem defaults _ (ensureEntryKeys_has_cm defaults e)
    (fun kv h => ensureEntryKeys_has_defaults defaults e kv h)

theorem ensureEntryKeys_fills (defaults e : List (String × Json)) (k : String) (dv : Json)
    (hnd : (defaults.map Prod.fst).Nodup)
    (hdef : alookup defaults k = some dv)
    (he : alookup e k = none)
    (hdc : k = "custom_models" → dv = Json.arr []) :
    alookup (ensureEntryKeys defaults e) k = some dv := by
  unfold ensureEntryKeys
  by_cases hk : k = "custom_models"
  · subst hk
    rw [hdc rfl]
    have hd : dhas e "custom_models" = false := by simp [dhas, he]
    apply foldl_insert_preserve
    simp only [hd, Bool.false_eq_true, if_false]
    exact alookup_dset_self e "custom_models" (Json.arr [])
  · apply foldl_insert_fills defaults _ k dv hnd hdef
    by_cases hd : dhas e "custom_models"
    · simpa [hd]
    · simp only [hd, Bool.false_eq_true, if_false]
      rw [alookup_dset_ne _ _ _ _ (fun h2 => hk h2.symm)]
      exact he

theorem dhas_of_mem (d : List (String × Json)) (kv : String × Json) (h : kv ∈ d) :
    dhas d kv.1 = true := by
  obtain ⟨k, v⟩ := kv
  simpa [dhas] using alookup_isSome_of_mem d k v h

theorem mAC_preserve_other (ds : List (String × List (String × Json))) :
    ∀ acs acs2 m, migrateApiConfigs ds acs = Except.ok acs2 →
    m ∉ ds.map Prod.fst → alookup acs2 m = alookup acs m := by
  induction ds with
  | nil =>
    intro acs acs2 m h _
    simp only [migrateApiConfigs, Except.ok.injEq] at h
    rw [h]
  | cons nd rest ih =>
    obtain ⟨name, defaults⟩ := nd
    intro acs acs2 m h hm
    simp only [List.map_cons, List.mem_cons, not_or] at hm
    obtain ⟨hm1, hm2⟩ := hm
    cases halo : alookup acs name with
    | none =>
      simp only [migrateApiConfigs, halo] at h
      rw [ih _ _ m h hm2, alookup_dset_ne _ _ _ _ (fun h2 => hm1 h2.symm)]
    | some v =>
      cases v with
      | obj e =>
        simp only [migrateApiConfigs, halo] at h
        rw [ih _ _ m h hm2, alookup_dset_ne _ _ _ _ (fun h2 => hm1 h2.symm)]
      | null => simp [migrateApiConfigs, halo] at h
      | bool b => simp [migrateApiConfigs, halo] at h
      | num n2 => simp [migrateApiConfigs, halo] at h
      | str s => simp [migrateApiConfigs, halo] at h
      | arr l => simp [migrateApiConfigs, halo] at h

theorem mAC_entry_field_preserve (ds : List (String × List (String × Json))) :
    ∀ acs acs2 n e k v, migrateApiConfigs ds acs = Except.ok acs2 →
    alookup acs n = some (Json.obj e) → alookup e k = some v →
    ∃ e2, alookup acs2 n = some (Json.obj e2) ∧ alookup e2 k = some v := by
  induction ds with
  | nil =>
    intro acs acs2 n e k v h hn hk
    simp only [migrateApiConfigs, Except.ok.injEq] at h
    exact ⟨e, h ▸ hn, hk⟩
  | cons nd rest ih =>
    obtain ⟨name, defaults⟩ := nd
    intro acs acs2 n e k v h hn hk
    by_cases hname : name = n
    · subst hname
      simp only [migrateApiConfigs, hn] at h
      exact ih _ _ name (ensureEntryKeys defaults e) k v h (alookup_dset_self _ _ _)
        (ensureEntryKeys_preserve defaults e k v hk)
    · cases halo : alookup acs name with
      | none =>
        simp only [migrateApiConfigs, halo] at h
        exact ih _ _ n e k v h
          (by rw [alookup_dset_ne _ _ _ _ hname]; exact hn) hk
      | some v2 =>
        cases v2 with
        | obj e2 =>
          simp only [migrateApiConfigs, halo] at h
          exact ih _ _ n e k v h
            (by rw [alookup_dset_ne _ _ _ _ hname]; exact hn) hk
        | null => simp [migrateApiConfigs, halo] at h
        | bool b => simp [migrateApiConfigs, halo] at h
        | num n2 => simp [migrateApiConfigs, halo] at h
        | str s => simp [migrateApiConfigs, halo] at h
        | arr l => simp [migrateApiConfigs, halo] at h

theorem mAC_idem (ds : List (String × List (String × Json))) :
    ∀ acs acs2, (ds.map Prod.fst).Nodup →
    (∀ p, p ∈ ds → dhas p.2 "custom_models" = true) →
    migrateApiConfigs ds acs = Except.ok acs2 →
    migrateApiConfigs ds acs2 = Except.ok acs2 := by
  induction ds with
  | nil =>
    intro acs acs2 _ _ _
    simp [migrateApiConfigs]
  | cons nd rest ih =>
    obtain ⟨name, defaults⟩ := nd
    intro acs acs2 hnd hcm h
    have hnotin : name ∉ rest.map Prod.fst := by
      simp only [List.map_cons, List.nodup_cons] at hnd
      exact hnd.1
    have hnd2 : (rest.map Prod.fst).Nodup := by
      simp only [List.map_cons, List.nodup_cons] at hnd
      exact hnd.2
    have hcm2 : ∀ p, p ∈ rest → dhas p.2 "custom_models" = true :=
      fun p hp => hcm p (List.mem_cons_of_mem _ hp)
    have hcmd : dhas defaults "custom_models" = true :=
      hcm ⟨name, defaults⟩ (List.mem_cons_self _ _)
    cases halo : alookup acs name with
    | none =>
      simp only [migrateApiConfigs, halo] at h
      have h2 : alookup acs2 name = some (Json.obj defaults) := by
        rw [mAC_preserve_other rest _ _ name h hnotin]
        exact alookup_dset_self _ _ _
      simp only [migrateApiConfigs, h2]
      rw [ensureEntryKeys_idem defaults defaults hcmd
        (fun kv hkv => dhas_of_mem defaults kv hkv)]
      rw [dset_same _ _ _ h2]
      exact ih _ _ hnd2 hcm2 h
    | some v =>
      cases v with
      | obj e =>
        simp only [migrateApiConfigs, halo] at h
        have h2 : alookup acs2 name = some (Json.obj (ensureEntryKeys defaults e)) := by
          rw [mAC_preserve_other rest _ _ name h hnotin]
          exact alookup_dset_self _ _ _
        simp only [migrateApiConfigs, h2]
        rw [ensureEntryKeys_twice]
        rw [dset_same _ _ _ h2]
        exact ih _ _ hnd2 hcm2 h
      | null => simp [migrateApiConfigs, halo] at h
      | bool b => simp [migrateApiConfigs, halo] at h
      | num n2 => simp [migrateApiConfigs, halo] at h
      | str s => simp [migrateApiConfigs, halo] at h
      | arr l => simp [migrateApiConfigs, halo] at h

theorem mAC_entry_fills (ds : List (String × List (String × Json))) :
    ∀ acs acs2 n defaults e k dv,
    migrateApiConfigs ds acs = Except.ok acs2 →
    alookup ds n = some defaults →
    alookup acs n = some (Json.obj e) →
    alookup e k = none →
    alookup defaults k = some dv →
    (defaults.map Prod.fst).Nodup →
    (k = "custom_models" → dv = Json.arr []) →
    ∃ e2, alookup acs2 n = some (Json.obj e2) ∧ alookup e2 k = some dv := by
  induction ds with
  | nil =>
    intro acs acs2 n defaults e k dv _ hds _ _ _ _ _
    simp [alookup] at hds
  | cons nd rest ih =>
    obtain ⟨name, defs⟩ := nd
    intro acs acs2 n defaults e k dv h hds hn he hdef hnd hdc
    by_cases hname : name = n
    · subst hname
      have hdefs : defs = defaults := by simpa [alookup] using hds
      subst hdefs
      simp only [migrateApiConfigs, hn] at h
      exact mAC_entry_field_preserve rest _ _ name (ensureEntryKeys defs e) k dv h
        (alookup_dset_self _ _ _)
        (ensureEntryKeys_fills defs e k dv hnd hdef he hdc)
    · have hds2 : alookup rest n = some defaults := by
        simpa [alookup, hname] using hds
      cases halo : alookup acs name with
      | none =>
        simp only [migrateApiConfigs, halo] at h
        exact ih _ _ n defaults e k dv h hds2
          (by rw [alookup_dset_ne _ _ _ _ hname]; exact hn) he hdef hnd hdc
      | some v =>
        cases v with
        | obj e3 =>
          simp only [migrateApiConfigs, halo] at h
          exact ih _ _ n defaults e k dv h hds2
            (by rw [alookup_dset_ne _ _ _ _ hname]; exact hn) he hdef hnd hdc
        | null => simp [migrateApiConfigs, halo] at h
        | bool b => simp [migrateApiConfigs, halo] at h
        | num n2 => simp [migrateApiConfigs, halo] at h
        | str s => simp [migrateApiConfigs, halo] at h
        | arr l => simp [migrateApiConfigs, halo] at h

theorem default_entry_facts (n : String) (defaults : List (String × Json))
    (h : alookup DEFAULT_API_CONFIGS n = some defaults) :
    (defaults.map Prod.fst).Nodup ∧
    alookup defaults "custom_models" = some (Json.arr []) := by
  simp only [DEFAULT_API_CONFIGS, mkDefaultEntry, alookup] at h
  repeat' split at h
  all_goals first
    | (injection h with h2; subst h2; exact ⟨by decide, rfl⟩)
    | exact Option.noConfusion h

theorem migrateApiConfigs_defaults_fixed :
    migrateApiConfigs DEFAULT_API_CONFIGS
      (DEFAULT_API_CONFIGS.map (fun p => (p.1, Json.obj p.2))) =
    Except.ok (DEFAULT_API_CONFIGS.map (fun p => (p.1, Json.obj p.2))) := rfl

theorem mAC_backend_fills (ds : List (String × List (String × Json))) :
    ∀ acs acs2 n defaults,
    (ds.map Prod.fst).Nodup →
    migrateApiConfigs ds acs = Except.ok acs2 →
    alookup ds n = some defaults →
    alookup acs n = none →
    alookup acs2 n = some (Json.obj defaults) := by
  induction ds with
  | nil =>
    intro acs acs2 n defaults _ _ hds _
    simp [alookup] at hds
  | cons nd rest ih =>
    obtain ⟨name, defs⟩ := nd
    intro acs acs2 n defaults hnd h hds hn
    have hnd1 : name ∉ rest.map Prod.fst := by
      simp only [List.map_cons, List.nodup_cons] at hnd
      exact hnd.1
    have hnd2 : (rest.map Prod.fst).Nodup := by
      simp only [List.map_cons, List.nodup_cons] at hnd
      exact hnd.2
    by_cases hname : name = n
    · subst hname
      have hdefs : defs = defaults := by simpa [alookup] using hds
      subst hdefs
      simp only [migrateApiConfigs, hn] at h
      rw [mAC_preserve_other rest _ _ name h hnd1]
      exact alookup_dset_self _ _ _
    · have hds2 : alookup rest n = some defaults := by
        simpa [alookup, hname] using hds
      cases halo : alookup acs name with
      | none =>
        simp only [migrateApiConfigs, halo] at h
        exact ih _ _ n defaults hnd2 h hds2
          (by rw [alookup_dset_ne _ _ _ _ hname]; exact hn)
      | some v =>
        cases v with
        | obj e3 =>
          simp only [migrateApiConfigs, halo] at h
          exact ih _ _ n defaults hnd2 h hds2
            (by rw [alookup_dset_ne _ _ _ _ hname]; exact hn)
        | null => simp [migrateApiConfigs, halo] at h
        | bool b => simp [migrateApiConfigs, halo] at h
        | num n2 => simp [migrateApiConfigs, halo] at h
        | str s => simp [migrateApiConfigs, halo] at h
        | arr l => simp [migrateApiConfigs, halo] at h


/-- C9: config migration is idempotent (migrating an already-migrated document
is the identity, so loading it twice yields the identical state) and purely
additive: every top-level key other than `api_configs` keeps its value, every
field present in a backend entry (recognized or unknown) keeps its value, a
recognized field missing from a present backend entry is filled with its
compiled default, and a missing backend entry is created from the compiled
defaults. -/
theorem migration_idempotent_additive (j c : Json)
    (hm : migrateConfig j = Except.ok c) :
    migrateConfig c = Except.ok c ∧
    (∀ fields k v, j = Json.obj fields → k ≠ "api_configs" → alookup fields k = some v →
      ∃ fields2, c = Json.obj fields2 ∧ alookup fields2 k = some v) ∧
    (∀ n k v, configField j n k = some v → configField c n k = some v) ∧
    (∀ fields acs e n defaults k dv,
      j = Json.obj fields →
      alookup fields "api_configs" = some (Json.obj acs) →
      alookup acs n = some (Json.obj e) →
      alookup DEFAULT_API_CONFIGS n = some defaults →
      alookup defaults k = some dv →
      alookup e k = none →
      configField c n k = some dv) ∧
    (∀ fields acs n defaults k,
      j = Json.obj fields →
      alookup fields "api_configs" = some (Json.obj acs) →
      alookup DEFAULT_API_CONFIGS n = some defaults →
      alookup acs n = none →
      configField c n k = alookup defaults k) := by
  cases j with
  | null => simp [migrateConfig] at hm
  | bool b => simp [migrateConfig] at hm
  | num n => simp [migrateConfig] at hm
  | str s => simp [migrateConfig] at hm
  | arr l => simp [migrateConfig] at hm
  | obj fields =>
    cases halo : alookup fields "api_configs" with
    | none =>
      simp only [migrateConfig, halo, Except.ok.injEq] at hm
      subst hm
      refine ⟨?_, ?_, ?_, ?_, ?_⟩
      · simp only [migrateConfig, alookup_dset_self, defaultApiConfigsJson,
          migrateApiConfigs_defaults_fixed]
        rw [dset_same _ _ _ (alookup_dset_self _ _ _)]
      · intro fields0 k v hj hk hv
        injection hj with hj2
        subst hj2
        exact ⟨_, rfl, by rw [alookup_dset_ne _ _ _ _ (fun h2 => hk h2.symm)]; exact hv⟩
      · intro n k v hcf
        simp [configField, halo] at hcf
      · intro fields0 acs0 e n defaults k dv hj hac hn hdef hdk he
        injection hj with hj2
        subst hj2
        rw [halo] at hac
        exact Option.noConfusion hac
      · intro fields0 acs0 n defaults k hj hac hdef hn
        injection hj with hj2
        subst hj2
        rw [halo] at hac
        exact Option.noConfusion hac
    | some v =>
      cases v with
      | null => simp [migrateConfig, halo] at hm
      | bool b => simp [migrateConfig, halo] at hm
      | num n => simp [migrateConfig, halo] at hm
      | str s => simp [migrateConfig, halo] at hm
      | arr l => simp [migrateConfig, halo] at hm
      | obj acs =>
        cases hmac : migrateApiConfigs DEFAULT_API_CONFIGS acs with
        | error u => simp [migrateConfig, halo, hmac] at hm
        | ok acs2 =>
          simp only [migrateConfig, halo, hmac, Except.ok.injEq] at hm
          subst hm
          have hnd : (DEFAULT_API_CONFIGS.map Prod.fst).Nodup := by decide
          have hcm : ∀ p, p ∈ DEFAULT_API_CONFIGS →
              dhas p.2 "custom_models" = true := by decide
          refine ⟨?_, ?_, ?_, ?_, ?_⟩
          · simp only [migrateConfig, alookup_dset_self,
              mAC_idem DEFAULT_API_CONFIGS acs acs2 hnd hcm hmac]
            rw [dset_same _ _ _ (alookup_dset_self _ _ _)]
          · intro fields0 k v hj hk hv
            injection hj with hj2
            subst hj2
            exact ⟨_, rfl,
              by rw [alookup_dset_ne _ _ _ _ (fun h2 => hk h2.symm)]; exact hv⟩
          · intro n k v hcf
            simp only [configField, halo] at hcf
            cases hn : alookup acs n with
            | none => simp [hn] at hcf
            | some w =>
              cases w with
              | obj e =>
                simp only [hn] at hcf
                obtain ⟨e2, h1, h2⟩ :=
                  mAC_entry_field_preserve DEFAULT_API_CONFIGS acs acs2 n e k v
                    hmac hn hcf
                simp only [configField, alookup_dset_self, h1]
                exact h2
              | null => simp [hn] at hcf
              | bool b => simp [hn] at hcf
              | num n2 => simp [hn] at hcf
              | str s => simp [hn] at hcf
              | arr l => simp [hn] at hcf
          · intro fields0 acs0 e n defaults k dv hj hac hn hdef hdk he
            injection hj with hj2
            subst hj2
            rw [halo] at hac
            injection hac with hac2
            injection hac2 with hac3
            subst hac3
            obtain ⟨hdnd, hdcm⟩ := default_entry_facts n defaults hdef
            have hdc : k = "custom_models" → dv = Json.arr [] := by
              intro hk2
              subst hk2
              rw [hdcm] at hdk
              injection hdk with h3
              exact h3.symm
            obtain ⟨e2, h1, h2⟩ :=
              mAC_entry_fills DEFAULT_API_CONFIGS acs acs2 n defaults e k dv
                hmac hdef hn he hdk hdnd hdc
            simp only [configField, alookup_dset_self, h1]
            exact h2
          · intro fields0 acs0 n defaults k hj hac hdef hn
            injection hj with hj2
            subst hj2
            rw [halo] at hac
            injection hac with hac2
            injection hac2 with hac3
            subst hac3
            have h1 := mAC_backend_fills DEFAULT_API_CONFIGS acs acs2 n defaults
              hnd hmac hdef hn
            simp only [configField, alookup_dset_self, h1]

/-- C9 witness: the migration theorem applied at the empty configuration
document, whose migration inserts the full default backend table. -/
theorem migration_idempotent_witness :
    migrateConfig (Json.obj (dset [] "api_configs" defaultApiConfigsJson)) =
      Except.ok (Json.obj (dset [] "api_configs" defaultApiConfigsJson)) :=
  (migration_idempotent_additive (Json.obj [])
    (Json.obj (dset [] "api_configs" defaultApiConfigsJson)) rfl).1
